import Mathlib

/-!
Verification of the extrema-localization engine of gw_eccentricity
(measureEccentricity/eccDefinitionUsingFrequencyFits.py).

Shallow embedding conventions:
* IEEE doubles are modelled as exact rationals; the constant np.pi is the
  exact rational value of the double nearest pi.
* numpy / python indexing errors are modelled with an Except monad
  (python raises IndexError; numpy raises on out-of-range fancy indexing).
* Rational division by zero yields 0 in Lean; in numpy a float 0.0/0.0
  yields nan with a warning and execution continues.  All theorems that
  depend on a quotient carry hypotheses making the denominator nonzero,
  except where the quotient's value is provably never consulted.
* The two scipy primitives used by the code, scipy.signal.find_peaks and
  scipy.optimize.curve_fit, are external collaborators (spec section 6
  calls the peak detector a black-box primitive); they are modelled as
  oracle functions supplied in the environment.  find_peaks receives the
  data that determines the residual it scans: the window bounds, the sign
  and the current fit parameters; it returns local indices into the
  window slice.  curve_fit receives the sample coordinates, the warm
  start and the bounds and returns fitted parameters.
-/

namespace GwEcc

/-- Failure modes of the engine, one constructor per raise site of the
source (plus python index errors and a fuel marker for the fueled loops,
proved unreachable below). -/
inductive Err where
  /-- envelope_fitting_function.__call__: merger time T inside the data. -/
  | fittingDomain
  /-- find_extrema: unknown extrema_type string. -/
  | invalidExtremaType
  /-- find_extrema: data set too short. -/
  | insufficientData
  /-- find_extrema: count large?? (outer runaway guard). -/
  | runawayLoop
  /-- FindExtremaNearIdxRef: could not identify Nbefore extrema to the left. -/
  | insufficientLeft
  /-- FindExtremaNearIdxRef: data set two or more extrema too short. -/
  | insufficientRight
  /-- FindExtremaNearIdxRef: it greater than 10, seems to not converge. -/
  | windowStall
  /-- FindExtremaNearIdxRef: it greater than 100, did not converge. -/
  | resolverNonConvergence
  /-- python IndexError from sequence indexing. -/
  | indexError
  /-- numpy max of an empty array. -/
  | emptyArray
  /-- model artifact: fuel ran out (proved unreachable for the supplied fuel). -/
  | fuelExhausted
deriving DecidableEq, Repr

/-- Python sequence indexing with negative-index wraparound:
l[i] is l.get i for 0 <= i < len, l.get (len+i) for -len <= i < 0,
and an IndexError otherwise. -/
def pyGet (l : List α) (i : ℤ) : Except Err α :=
  if h : 0 ≤ i ∧ i < l.length then
    .ok (l.get ⟨i.toNat, by omega⟩)
  else if h2 : 0 ≤ i + l.length ∧ i < 0 then
    .ok (l.get ⟨(i + l.length).toNat, by omega⟩)
  else
    .error .indexError

/-- Indexing with a natural index (numpy integer-array entries are
nonnegative in this code path). -/
def pyGetNat (l : List α) (i : ℕ) : Except Err α := pyGet l (i : ℤ)

/-- numpy argmax of the boolean array (xs > c): index of the first True,
and 0 when every entry is False. -/
def argmaxGt (xs : List ℚ) (c : ℚ) : ℕ :=
  let i := xs.findIdx (fun x => c < x)
  if i = xs.length then 0 else i

/-- numpy argmax of the boolean array (xs >= r) for an integer array:
index of the first True, and 0 when every entry is False. -/
def argmaxGeNat (xs : List ℕ) (r : ℕ) : ℕ :=
  let i := xs.findIdx (fun x => r ≤ x)
  if i = xs.length then 0 else i

/-- Exact rational value of the IEEE double np.pi. -/
def pi : ℚ := 884279719003555 / 281474976710656

/-- Fitting parameters (f0, f1, T): function value and first derivative at
the model's reference time t0, and the singularity time T. -/
structure P where
  f0 : ℚ
  f1 : ℚ
  T : ℚ
deriving DecidableEq, Repr

/-!
## EnvelopeModel (class envelope_fitting_function)

The call re-expresses (f0, f1, T) as an exponent n and amplitude A and
evaluates A*(T-t)^n.  The real power function on floats is an external
numeric primitive; it enters the model as the oracle argument rpow.
-/

/-- Exponent n = -(T - t0)*f1/f0 of the reparameterised envelope. -/
def envExponent (t0 f0 f1 T : ℚ) : ℚ := -(T - t0) * f1 / f0

/-- Amplitude A = f0*(T - t0)^(-n) of the reparameterised envelope;
rpow is the power primitive. -/
def envAmplitude (rpow : ℚ → ℚ → ℚ) (t0 f0 f1 T : ℚ) : ℚ :=
  f0 * rpow (T - t0) (-(envExponent t0 f0 f1 T))

/-- envelope_fitting_function.__call__(t, f0, f1, T): computes n and A,
raises when max(t) exceeds T strictly (the source guard is max(t) > T),
and otherwise returns A*(T-t)^n elementwise.  numpy max of an empty
array raises. -/
def envelope_call (rpow : ℚ → ℚ → ℚ) (t0 : ℚ) (ts : List ℚ)
    (f0 f1 T : ℚ) : Except Err (List ℚ) :=
  let n := envExponent t0 f0 f1 T
  let A := envAmplitude rpow t0 f0 f1 T
  match ts.max? with
  | none => .error .emptyArray
  | some m =>
    if T < m then .error .fittingDomain
    else .ok (ts.map (fun t => A * rpow (T - t) n))

/-!
## WindowExtremaResolver (function FindExtremaNearIdxRef)
-/

/-- Waveform data and the two external numeric primitives.
findPeaks stands for scipy.signal.find_peaks applied to
sign*(omega22[lo:hi] - f_fit(t[lo:hi], p)); it receives everything that
determines that residual array and returns local indices into the slice.
curveFit stands for scipy.optimize.curve_fit of the envelope model:
it receives the sample abscissae, ordinates, the warm start and the
bounds and returns the fitted parameters. -/
structure DEnv where
  t : List ℚ
  phase22 : List ℚ
  omega22 : List ℚ
  findPeaks : ℤ → ℕ → ℕ → P → List ℕ
  curveFit : List ℚ → List ℚ → P → List (List ℚ) → P

/-- Scalar arguments of FindExtremaNearIdxRef together with the data. -/
structure RCtx where
  d : DEnv
  sign : ℤ
  Nbefore : ℕ
  Nafter : ℕ
  bounds : List (List ℚ)
  TOL : ℚ
  increase_idx_ref_if_needed : Bool

/-- Mutable local state of the resolver's while-loop.  In the source
old_idx_lo and old_idx_hi start at -1 and interval_changed_on_it is an
unbound local until the first interval change; every read of it is
guarded by the short-circuit of the preceding disequality test, so the
initial value 0 used here is never consulted. -/
structure RSt where
  idx_lo : ℕ
  idx_hi : ℕ
  idx_ref : ℕ
  K : ℚ
  p : P
  old_extrema : List ℚ
  old_idx_lo : ℤ
  old_idx_hi : ℤ
  interval_changed_on_it : ℤ
  it : ℕ
deriving DecidableEq

/-- Return payload of the resolver: idx_extrema, p, K, idx_ref. -/
abbrev ResolverRet := List ℕ × P × ℚ × ℕ

/-- Value of max_delta_omega: 1e99 when the lengths differ, otherwise the
largest absolute difference (the lists are nonempty whenever this is
reached, so seeding the fold with 0 agrees with numpy max). -/
def maxDeltaOmega (xs ys : List ℚ) : ℚ :=
  if xs.length ≠ ys.length then 10 ^ 99
  else ((xs.zip ys).map (fun q => |q.1 - q.2|)).foldl max 0

/-- Tail of one resolver iteration, reached when the extrema counts match
the targets or the corrected interval equals the previous one: the
convergence check, the return, and the envelope refit. -/
def resolverTail (c : RCtx) (s : RSt) (idx_extrema : List ℕ)
    (lo hi ref : ℕ) (K : ℚ) (it : ℕ) : Except Err (ResolverRet ⊕ RSt) :=
  match idx_extrema.mapM (pyGetNat c.d.omega22) with
  | .error e => .error e
  | .ok omega22_extrema =>
    if maxDeltaOmega omega22_extrema s.old_extrema < c.TOL then
      .ok (Sum.inl (idx_extrema, s.p, K, ref))
    else
      match idx_extrema.mapM (pyGetNat c.d.t) with
      | .error e => .error e
      | .ok tse =>
        if 100 < it then .error Err.resolverNonConvergence
        else
          .ok (Sum.inr { s with
            idx_lo := lo, idx_hi := hi, idx_ref := ref, K := K,
            p := c.d.curveFit tse omega22_extrema s.p c.bounds,
            old_extrema := omega22_extrema, it := it })

/-- Re-estimation of the periastron-advance K from the identified
candidate extrema: (phase22[idx_extrema[-1]] - phase22[idx_extrema[0]])
divided by 4*pi*(len(idx_extrema)-1).  An empty candidate list raises an
IndexError; with a single candidate the float code computes 0.0/0.0
(nan, a warning but no exception) and continues, which the rational
model renders as the junk value 0 (see the conventions above). -/
def Kupdate (phase22 : List ℚ) (idx_extrema : List ℕ) : Except Err ℚ :=
  match pyGet idx_extrema (-1) with
  | .error e => .error e
  | .ok eLast =>
    match pyGet idx_extrema 0 with
    | .error e => .error e
    | .ok eFirst =>
      match pyGetNat phase22 eLast with
      | .error e => .error e
      | .ok phLast =>
        match pyGetNat phase22 eFirst with
        | .error e => .error e
        | .ok phFirst =>
          .ok ((phLast - phFirst) / (4 * pi * ((idx_extrema.length : ℚ) - 1)))

/-- Left-side window-count correction.  Returns the updated triple
(idx_lo, idx_ref, Nright): too many extrema on the left moves idx_lo to
the midpoint of the boundary-crossing extrema; too few with idx_lo
already 0 either shifts idx_ref one extremum rightward (decrementing the
local Nright) or waits or raises; too few with room left moves idx_lo to
1.5 radial periods before the first extremum. -/
def correctLeft (c : RCtx) (s : RSt) (idx_extrema : List ℕ)
    (Nleft Nright : ℕ) (K : ℚ) : Except Err (ℕ × ℕ × ℕ) :=
  if c.Nbefore < Nleft then
    match pyGet idx_extrema ((Nleft : ℤ) - c.Nbefore - 1) with
    | .error e => .error e
    | .ok a =>
      match pyGet idx_extrema ((Nleft : ℤ) - c.Nbefore) with
      | .error e => .error e
      | .ok b => .ok ((a + b) / 2, s.idx_ref, Nright)
  else if Nleft < c.Nbefore then
    if s.idx_lo = 0 then
      if c.increase_idx_ref_if_needed then
        if 2 ≤ Nright then
          match pyGetNat idx_extrema (argmaxGeNat idx_extrema s.idx_ref) with
          | .error e => .error e
          | .ok a =>
            match pyGetNat idx_extrema (argmaxGeNat idx_extrema s.idx_ref + 1) with
            | .error e => .error e
            | .ok b => .ok (s.idx_lo, (a + b) / 2, Nright - 1)
        else
          .ok (s.idx_lo, s.idx_ref, Nright)
      else .error Err.insufficientLeft
    else
      match pyGet idx_extrema 0 with
      | .error e => .error e
      | .ok e0 =>
        match pyGetNat c.d.phase22 e0 with
        | .error e => .error e
        | .ok ph0 =>
          .ok (argmaxGt c.d.phase22 (ph0 - K * 4 * pi * 1.5), s.idx_ref, Nright)
  else .ok (s.idx_lo, s.idx_ref, Nright)

/-- Right-side window-count correction, on the possibly decremented
Nright and after the left correction has produced glo.  Returns the
updated idx_hi: too many extrema shrinks it to a midpoint (indexing from
the end of the array as the source does); too few with room extends it
by 1.5 radial periods, clamped to the series length; too few at the end
of the data passes for a shortfall of one, and for a shortfall of two or
more passes only inside the stall-grace window and raises otherwise. -/
def correctRight (c : RCtx) (s : RSt) (idx_extrema : List ℕ)
    (glo gNright : ℕ) (K : ℚ) (it : ℕ) : Except Err ℕ :=
  if c.Nafter < gNright then
    match pyGet idx_extrema ((c.Nafter : ℤ) - gNright) with
    | .error e => .error e
    | .ok a =>
      match pyGet idx_extrema ((c.Nafter : ℤ) - gNright - 1) with
      | .error e => .error e
      | .ok b => .ok ((a + b) / 2)
  else if gNright < c.Nafter then
    if s.idx_hi < c.d.phase22.length then
      match pyGet idx_extrema (-1) with
      | .error e => .error e
      | .ok eL =>
        match pyGetNat c.d.phase22 eL with
        | .error e => .error e
        | .ok phL =>
          let h1 := argmaxGt c.d.phase22 (phL + K * 4 * pi * 1.5)
          .ok (if h1 = 0 then c.d.phase22.length else h1)
    else
      if (gNright : ℤ) < (c.Nafter : ℤ) - 1 then
        if ((glo : ℤ), (s.idx_hi : ℤ)) ≠ (s.old_idx_lo, s.old_idx_hi)
            ∨ (it : ℤ) ≤ s.interval_changed_on_it + 1 then
          .ok s.idx_hi
        else .error Err.insufficientRight
      else .ok s.idx_hi
  else .ok s.idx_hi

/-- Window-count correction and dispatch: when the counts differ from
the targets run both side corrections and restart the loop if the
interval changed; otherwise (or when the corrected interval equals the
previous one) proceed to the convergence tail. -/
def resolverCorrect (c : RCtx) (s : RSt) (idx_extrema : List ℕ)
    (Nleft Nright : ℕ) (K : ℚ) (it : ℕ) :
    Except Err (ResolverRet ⊕ RSt) :=
  if Nleft ≠ c.Nbefore ∨ Nright ≠ c.Nafter then
    match correctLeft c s idx_extrema Nleft Nright K with
    | .error e => .error e
    | .ok (glo, gref, gNright) =>
      match correctRight c s idx_extrema glo gNright K it with
      | .error e => .error e
      | .ok ghi =>
        if ((glo : ℤ), (ghi : ℤ)) ≠ (s.old_idx_lo, s.old_idx_hi) then
          .ok (Sum.inr { s with
            idx_lo := glo, idx_hi := ghi, idx_ref := gref,
            K := K, it := it, interval_changed_on_it := (it : ℤ),
            old_idx_lo := (glo : ℤ), old_idx_hi := (ghi : ℤ) })
        else
          resolverTail c s idx_extrema glo ghi gref K it
  else
    resolverTail c s idx_extrema s.idx_lo s.idx_hi s.idx_ref K it

/-- One pass of the resolver's while-loop: iteration cap, envelope domain
guard on the window slice, peak detection, K re-estimation, window-count
corrections, and either a restart with the corrected window, a raise, or
the convergence tail. -/
def resolverIter (c : RCtx) (s : RSt) : Except Err (ResolverRet ⊕ RSt) :=
  let it := s.it + 1
  if 10 < it then .error Err.windowStall
  else
    -- omega_residual = omega22[idx_lo:idx_hi] - f_fit(t[idx_lo:idx_hi], *p):
    -- only the domain guard of f_fit affects control flow here; the
    -- residual values are consumed by the findPeaks primitive.
    match ((c.d.t.drop s.idx_lo).take (s.idx_hi - s.idx_lo)).max? with
    | none => .error Err.emptyArray
    | some mx =>
      if s.p.T < mx then .error Err.fittingDomain
      else
        let idx_extrema :=
          (c.d.findPeaks c.sign s.idx_lo s.idx_hi s.p).map (· + s.idx_lo)
        let Nleft := idx_extrema.countP (fun j => decide (j < s.idx_ref))
        let Nright := idx_extrema.countP (fun j => decide (s.idx_ref ≤ j))
        match Kupdate c.d.phase22 idx_extrema with
        | .error e => .error e
        | .ok K => resolverCorrect c s idx_extrema Nleft Nright K it

/-- The resolver's while-loop, with structural fuel.  The source loop is
bounded by the iteration cap (it is proved below that fuel 12 is never
exhausted). -/
def resolverLoop (c : RCtx) : ℕ → RSt → Except Err ResolverRet
  | 0, _ => .error .fuelExhausted
  | fuel + 1, s =>
    match resolverIter c s with
    | .error e => .error e
    | .ok (.inl r) => .ok r
    | .ok (.inr s2) => resolverLoop c fuel s2

/-- FindExtremaNearIdxRef(t, phase22, omega22, idx_ref, sign, Nbefore,
Nafter, K, f_fit, p_initial, bounds, TOL, increase_idx_ref_if_needed):
computes the initial phase-based window and runs the correction loop. -/
def FindExtremaNearIdxRef (d : DEnv) (idx_ref : ℕ) (sign : ℤ)
    (Nbefore Nafter : ℕ) (K : ℚ) (p_initial : P) (bounds : List (List ℚ))
    (TOL : ℚ) (increase_idx_ref_if_needed : Bool) :
    Except Err ResolverRet :=
  let c : RCtx := ⟨d, sign, Nbefore, Nafter, bounds, TOL,
                   increase_idx_ref_if_needed⟩
  let DeltaPhase := 4 * pi * K
  match pyGetNat d.phase22 idx_ref with
  | .error e => .error e
  | .ok phr =>
    let idx_lo := argmaxGt d.phase22 (phr - DeltaPhase * Nbefore)
    let idx_hi0 := argmaxGt d.phase22 (phr + DeltaPhase * Nafter)
    let idx_hi := if idx_hi0 = 0 then d.phase22.length else idx_hi0
    resolverLoop c 12
      { idx_lo := idx_lo, idx_hi := idx_hi, idx_ref := idx_ref, K := K,
        p := p_initial, old_extrema := List.replicate (Nbefore + Nafter) 0,
        old_idx_lo := -1, old_idx_hi := -1, interval_changed_on_it := 0,
        it := 0 }

/-!
## ExtremaSequenceBuilder (method find_extrema)
-/

/-- Mutable state of the outer driver loop. -/
structure DSt where
  extrema : List ℕ
  p : P
  K : ℚ
  idx_ref : ℕ
  count : ℕ

/-- Post-resolver part of one driver pass: append the extremum at
position N, advance idx_ref to the midpoint of positions N+1 and N+2,
break on a short result, and check the runaway cap.  The idx_ref value
returned by the resolver is immediately overwritten by the midpoint, as
in the source. -/
def driverHandle (N : ℕ) (count2 : ℕ) (extrema : List ℕ)
    (r : ResolverRet) : Except Err (List ℕ ⊕ DSt) :=
  match r with
  | (idx_extrema, p2, K2, _) =>
    match pyGet idx_extrema (N : ℤ) with
    | .error e => .error e
    | .ok ex =>
      let extrema2 := extrema ++ [ex]
      match pyGet idx_extrema ((N : ℤ) + 1) with
      | .error e => .error e
      | .ok a =>
        match pyGet idx_extrema ((N : ℤ) + 2) with
        | .error e => .error e
        | .ok b =>
          let idx_ref3 := (a + b) / 2
          if idx_extrema.length ≤ 2 * N then
            .ok (Sum.inl extrema2)
          else if 1000 < count2 then .error Err.runawayLoop
          else
            .ok (Sum.inr { extrema := extrema2, p := p2, K := K2,
                           idx_ref := idx_ref3, count := count2 })

/-- The driver's while-loop, with structural fuel (the count cap bounds
it by 1001 passes, so fuel 1002 is never exhausted). -/
def driverLoop (d : DEnv) (sign : ℤ) (N : ℕ) (bounds0 : List (List ℚ)) :
    ℕ → DSt → Except Err (List ℕ)
  | 0, _ => .error .fuelExhausted
  | fuel + 1, s =>
    match FindExtremaNearIdxRef d s.idx_ref sign (N + 1) N s.K s.p
            bounds0 (1 / 10 ^ 8) true with
    | .error e => .error e
    | .ok r =>
      match driverHandle N (s.count + 1) s.extrema r with
      | .error e => .error e
      | .ok (.inl out) => .ok out
      | .ok (.inr s2) => driverLoop d sign N bounds0 fuel s2

/-- find_extrema(extrema_type): validate the type, set up the global-fit
guess and bounds, perform the global fit, pick the starting idx_ref from
a phase advance of K*N*4*pi, and walk the resolver across the series. -/
def findExtremaWithSign (d : DEnv) (sign : ℤ) : Except Err (List ℕ) :=
  let N : ℕ := 3
  match pyGet d.t 0 with
  | .error e => .error e
  | .ok t0 =>
    match pyGet d.t (-1) with
    | .error e => .error e
    | .ok tLast =>
      let fit_center_time := (t0 + tLast) / 2
      let nPN : ℚ := -3 / 8
      match pyGet d.omega22 0 with
      | .error e => .error e
      | .ok w0 =>
        match pyGet d.omega22 (-1) with
        | .error e => .error e
        | .ok wLast =>
          let f0 := (w0 + wLast) / 2
          let p0 : P := ⟨f0, -nPN * f0 / (-fit_center_time), 0⟩
          let bounds0 : List (List ℚ) :=
            [[0, 0, (4 / 5) * tLast],
             [1, 10 / (-fit_center_time), -fit_center_time]]
          let p_global := d.curveFit d.t d.omega22 p0 bounds0
          let K : ℚ := 6 / 5
          match pyGet d.phase22 0 with
          | .error e => .error e
          | .ok ph0 =>
            let idx_ref := argmaxGt d.phase22 (ph0 + K * N * 4 * pi)
            if idx_ref = 0 then .error Err.insufficientData
            else
              driverLoop d sign N bounds0 1002
                { extrema := [], p := p_global, K := K,
                  idx_ref := idx_ref, count := 0 }

def findExtrema (d : DEnv) (extrema_type : String) :
    Except Err (List ℕ) :=
  if extrema_type = "maxima" ∨ extrema_type = "peaks" then
    findExtremaWithSign d 1
  else if extrema_type = "minima" ∨ extrema_type = "troughs" then
    findExtremaWithSign d (-1)
  else .error Err.invalidExtremaType

/-!
## Well-formedness of the external peak primitive
-/

/-- Well-formedness of the peak-detection primitive, as guaranteed by
scipy.signal.find_peaks: a returned local index needs a strictly smaller
neighbour on each side, so it is at least 1 and at most the slice length
minus 2, and therefore two peaks are at least 2 apart; the returned
indices are strictly increasing. -/
def ValidPeaks (fp : ℤ → ℕ → ℕ → P → List ℕ) : Prop :=
  ∀ sg lo hi p, (fp sg lo hi p).Pairwise (fun a b => a + 2 ≤ b) ∧
    ∀ j ∈ fp sg lo hi p, 1 ≤ j ∧ j + 2 ≤ hi - lo

/-- A peak primitive that behaves as the restriction of one fixed global
list S of (absolute) peak positions to the interior of each queried
window, returned as local indices relative to the window start. -/
def restrictPeaks (S : List ℕ) : ℤ → ℕ → ℕ → P → List ℕ :=
  fun _ lo hi _ =>
    (S.filter (fun j => decide (lo + 1 ≤ j) && decide (j + 2 ≤ hi))).map
      (· - lo)

/-!
## Concrete instances used by the counterexamples and witnesses
-/

/-- Time samples used by the concrete instances: -43, -42, ..., -1. -/
def tS : List ℚ := (List.range 43).map (fun i => (i : ℚ) - 43)

/-- Phase samples used by the concrete instances: 0, 2, 4, ..., 84. -/
def phaseS : List ℚ := (List.range 43).map (fun i => 2 * (i : ℚ))

/-- Constant frequency samples used by the concrete instances. -/
def omegaS : List ℚ := (List.range 43).map (fun _ => (1 : ℚ))

/-- Peak primitive of the first driver scenario: the initial full window
and the second window it induces each carry a fixed set of peaks. -/
def peaksA : ℤ → ℕ → ℕ → P → List ℕ := fun _ lo hi _ =>
  if lo = 0 ∧ hi = 43 then [3, 7, 11, 15, 25, 29, 33]
  else if lo = 8 ∧ hi = 43 then [1, 3, 5, 7, 23, 27]
  else []

/-- Driver scenario A: two resolver calls, the second returning the
short end-of-data result. -/
def envA : DEnv := ⟨tS, phaseS, omegaS, peaksA, fun _ _ p _ => p⟩

/-- Peak primitive of resolver scenario B: the refit changes the
parameters, the peaks move, and the window stabilises around a result
that is two extrema short on the right. -/
def peaksB : ℤ → ℕ → ℕ → P → List ℕ := fun _ lo hi p =>
  if lo = 0 ∧ hi = 43 then [3, 5, 7, 9, 11]
  else if lo = 4 ∧ hi = 43 ∧ p.f0 = 1 then [5, 7, 9, 11, 27]
  else if lo = 4 ∧ hi = 43 then [5, 7, 9, 11, 13, 27]
  else if lo = 10 ∧ hi = 43 then [1, 3, 5, 7, 21]
  else []

/-- Resolver scenario B: a fit oracle that moves f0 by one at each
refit. -/
def envB : DEnv := ⟨tS, phaseS, omegaS, peaksB,
  fun _ _ p _ => ⟨p.f0 + 1, p.f1, p.T⟩⟩

/-- Peak primitive of driver scenario C10, like scenario B but keyed to
the parameter values the driver produces. -/
def peaksC10 : ℤ → ℕ → ℕ → P → List ℕ := fun _ lo hi p =>
  if lo = 0 ∧ hi = 43 then [3, 5, 7, 9, 11]
  else if lo = 4 ∧ hi = 43 ∧ p.f0 = 2 then [5, 7, 9, 11, 27]
  else if lo = 4 ∧ hi = 43 then [5, 7, 9, 11, 13, 27]
  else if lo = 10 ∧ hi = 43 then [1, 3, 5, 7, 21]
  else []

/-- Driver scenario C10: the resolver hands the driver a five-element
result. -/
def envC10 : DEnv := ⟨tS, phaseS, omegaS, peaksC10,
  fun _ _ p _ => ⟨p.f0 + 1, p.f1, p.T⟩⟩

/-- Frequency samples of scenario C6, distinct at the alternating peak
sets so the convergence test keeps failing. -/
def omegaC6 : List ℚ := (List.range 43).map (fun i => (i : ℚ))

/-- Peak primitive of scenario C6: two count-matching peak sets chosen by
the current fit parameters, which the fit oracle toggles, so every
iteration is a pure fit refinement. -/
def peaksC6 : ℤ → ℕ → ℕ → P → List ℕ := fun _ lo hi p =>
  if lo = 0 ∧ hi = 43 ∧ p.f0 = 0 then [3, 7, 11, 15, 25, 29, 33]
  else if lo = 0 ∧ hi = 43 then [5, 9, 13, 17, 25, 29, 33]
  else []

/-- Scenario C6: the iteration counter runs out while only fit
refinements happen. -/
def envC6 : DEnv := ⟨tS, phaseS, omegaC6, peaksC6,
  fun _ _ p _ => ⟨1 - p.f0, p.f1, p.T⟩⟩

/-- Frequency samples of scenario C9, all zero so the convergence test
passes at once. -/
def omegaC9 : List ℚ := (List.range 43).map (fun _ => (0 : ℚ))

/-- Peak primitive of scenario C9: a single candidate in the queried
window. -/
def peaksC9 : ℤ → ℕ → ℕ → P → List ℕ := fun _ lo hi _ =>
  if lo = 16 ∧ hi = 24 then [3] else []

/-- Scenario C9: peak detection yields one candidate and the resolver
returns normally. -/
def envC9 : DEnv := ⟨tS, phaseS, omegaC9, peaksC9, fun _ _ p _ => p⟩

/-- Phase samples of scenario C7: a total advance of exactly 20*pi,
that is five oscillation cycles of 4*pi each. -/
def phaseC7 : List ℚ := (List.range 43).map (fun i => (i : ℚ) * 20 * pi / 42)

/-- Scenario C7: five cycles of data, an empty peak primitive. -/
def envC7 : DEnv := ⟨tS, phaseC7, omegaS, fun _ _ _ _ => [], fun _ _ p _ => p⟩

/-- Resolver context of the first driver call on scenario A. -/
def cC8 : RCtx := ⟨envA, 1, 4, 3, [[0, 0, (4 / 5) * (-1)], [1, 10 / 22, 22]],
  1 / 10 ^ 8, true⟩

/-- Loop state of the first iteration of the first driver call on
scenario A. -/
def sC8 : RSt :=
  ⟨0, 43, 23, 6 / 5, ⟨1, 3 / 176, 0⟩, List.replicate 7 0, -1, -1, 0, 0⟩

/-- Resolver context over scenario C7 (whose peak primitive returns no
candidates). -/
def cC9w : RCtx := ⟨envC7, 1, 4, 3, [], 1 / 10 ^ 8, true⟩

/-- A resolver loop state over the full data window of scenario C7. -/
def sC9w : RSt :=
  ⟨0, 43, 23, 6 / 5, ⟨1, 0, 0⟩, List.replicate 7 0, -1, -1, 0, 0⟩

/-- Tiny two-sample series whose phase never advances by the starting
threshold, so the driver rejects it as insufficient data. -/
def dC7w : DEnv := ⟨[-2, -1], [0, 1], [1, 1], fun _ _ _ _ => [],
  fun _ _ p _ => p⟩

/-- Fixed global peak set of the consistent-primitive scenario. -/
def SC4 : List ℕ := [3, 7, 11, 15, 25, 29, 33]

/-- Scenario whose peak primitive is the restriction of the fixed global
set SC4 to the interior of each queried window. -/
def envC4 : DEnv := ⟨tS, phaseS, omegaS, restrictPeaks SC4, fun _ _ p _ => p⟩

end GwEcc

deriving instance DecidableEq for Except

namespace GwEcc

section ConcreteRuns

attribute [local semireducible] Rat.add Rat.mul Rat.sub Rat.inv Rat.ofScientific

set_option maxRecDepth 1000000

/-- Claim C1, counterexample: with max(times) equal to T the evaluation
returns a value instead of failing, because the source guard is the
strict comparison max(t) > T.  Here times = [1], T = 1. -/
theorem claim_C1_counterexample :
    envelope_call (fun _ _ => 1) 0 [1] 1 0 1 = .ok [1] := by decide

/-- Claim C2, evaluation at the failing input: with a peak primitive and
fit oracle as in scenario B, the resolver returns normally with five
extrema, two short of Nbefore + Nafter = 7, after the window has
stabilised, instead of raising the insufficient-right-extrema error its
own contract prescribes for a shortfall of two or more. -/
theorem claim_C2_theorem :
    FindExtremaNearIdxRef envB 23 1 4 3 (6 / 5) ⟨1, 0, 0⟩ [] (1 / 10 ^ 8) true
      = .ok ([11, 13, 15, 17, 31], ⟨2, 0, 0⟩, 40 / (16 * pi), 23)
    ∧ ([11, 13, 15, 17, 31] : List ℕ).length = 4 + 3 - 2 := by
  exact ⟨by decide, by decide⟩

/-- Claim C3, counterexample: on scenario A the driver terminates
normally after its second resolver call, although no resolver call
returned fewer than 2N = 6 extrema: the first returned 7 and the second
exactly 6 (the source breaks on len(idx_extrema) <= 2N, not < 2N). -/
theorem claim_C3_counterexample :
    findExtrema envA "maxima" = .ok [15, 15]
    ∧ FindExtremaNearIdxRef envA 23 1 4 3 (6 / 5) ⟨1, 3 / 176, 0⟩
        [[0, 0, (4 / 5) * (-1)], [1, 10 / 22, 22]] (1 / 10 ^ 8) true
      = .ok ([3, 7, 11, 15, 25, 29, 33], ⟨1, 3 / 176, 0⟩, 60 / (24 * pi), 23)
    ∧ FindExtremaNearIdxRef envA 27 1 4 3 (60 / (24 * pi)) ⟨1, 3 / 176, 0⟩
        [[0, 0, (4 / 5) * (-1)], [1, 10 / 22, 22]] (1 / 10 ^ 8) true
      = .ok ([9, 11, 13, 15, 31, 35], ⟨1, 3 / 176, 0⟩, 52 / (20 * pi), 27) := by
  exact ⟨by decide, by decide, by decide⟩

/-- Claim C4, counterexample: on scenario A the driver returns without
error, yet the returned index sequence [15, 15] is not strictly
increasing — nothing ties the extrema found by consecutive resolver
calls together when the peak primitive is inconsistent across
windows. -/
theorem claim_C4_counterexample :
    findExtrema envA "maxima" = .ok [15, 15]
    ∧ ¬ List.Pairwise (fun a b => a < b) [15, 15] := by
  exact ⟨by decide, by simp⟩

/-- Claim C6, counterexample: on scenario C6 every iteration is a pure
fit refinement (the counts always match the targets), yet the call fails
with the it > 10 cap (the window-stall error), showing that the
fit-refinement loop is governed by that cap and not by the it > 100
non-convergence cap, which is unreachable. -/
theorem claim_C6_counterexample :
    FindExtremaNearIdxRef envC6 23 1 4 3 (6 / 5) ⟨0, 0, 0⟩ [] (1 / 10 ^ 8) true
      = .error .windowStall := by decide

/-- Claim C7, counterexample: a series whose total phase advance is
exactly five oscillation cycles (20*pi) passes the starting guard, whose
threshold is only K*N*4*pi = 14.4*pi, and the driver proceeds into
window resolution, failing there with an index error rather than with
the insufficient-data error the claim predicts. -/
theorem claim_C7_counterexample :
    phaseC7.getLastD 0 - phaseC7.headD 0 = 5 * (4 * pi)
    ∧ findExtrema envC7 "maxima" = .error .indexError := by
  exact ⟨by decide, by decide⟩

/-- Claim C9, counterexample: with exactly one candidate extremum the
resolver does not fail at the K re-estimation step; the denominator
4*pi*(count-1) is zero (the float code yields nan with a warning and no
exception) and on scenario C9 the call even returns normally. -/
theorem claim_C9_counterexample :
    (FindExtremaNearIdxRef envC9 23 1 1 0 (6 / 5) ⟨1, 0, 0⟩ [] (1 / 10 ^ 8)
      true).isOk = true := by decide

/-- Claim C10, counterexample: on scenario C10 the resolver returns a
five-element result without raising, and find_extrema then fails with an
IndexError reading position N + 2 = 5, so the three driver accesses are
not in bounds for every resolver result. -/
theorem claim_C10_counterexample :
    findExtrema envC10 "maxima" = .error .indexError
    ∧ FindExtremaNearIdxRef envC10 23 1 4 3 (6 / 5) ⟨2, 3 / 176, 0⟩
        [[0, 0, (4 / 5) * (-1)], [1, 10 / 22, 22]] (1 / 10 ^ 8) true
      = .ok ([11, 13, 15, 17, 31], ⟨3, 3 / 176, 0⟩, 40 / (16 * pi), 23) := by
  exact ⟨by decide, by decide⟩

end ConcreteRuns

/-!
## Helper lemmas: python indexing
-/

theorem pyGet_ofNat (l : List α) (n : ℕ) (h : n < l.length) :
    pyGet l (n : ℤ) = .ok (l.get ⟨n, h⟩) := by
  unfold pyGet
  rw [dif_pos ⟨Int.ofNat_nonneg n, by exact_mod_cast h⟩]
  simp

theorem pyGet_ofNat_err (l : List α) (n : ℕ) (h : l.length ≤ n) :
    pyGet l (n : ℤ) = .error .indexError := by
  unfold pyGet
  rw [dif_neg (by omega), dif_neg (by omega)]

theorem list_get_congr (l : List α) (j k : ℕ) (hj : j < l.length)
    (hk : k < l.length) (hjk : j = k) : l.get ⟨j, hj⟩ = l.get ⟨k, hk⟩ := by
  subst hjk; rfl

theorem pyGet_neg_one (l : List α) (h : l ≠ []) :
    pyGet l (-1) = .ok (l.getLast h) := by
  have hlen : 0 < l.length := List.length_pos.mpr h
  unfold pyGet
  rw [dif_neg (by omega), dif_pos ⟨by omega, by omega⟩]
  refine congrArg Except.ok ?_
  have h1 : l.getLast h = l.get ⟨l.length - 1, by omega⟩ := by
    rw [List.getLast_eq_getElem, List.get_eq_getElem]
  rw [h1]
  exact list_get_congr l _ _ _ _ (by omega)

theorem pyGet_nil (i : ℤ) : pyGet ([] : List α) i = .error .indexError := by
  unfold pyGet
  rw [dif_neg (by simp only [List.length_nil]; omega),
      dif_neg (by simp only [List.length_nil]; omega)]

theorem pyGetNat_lt (l : List α) (n : ℕ) (h : n < l.length) :
    pyGetNat l n = .ok (l.get ⟨n, h⟩) := pyGet_ofNat l n h

/-!
## Helper lemmas: sorted lists, counting and search
-/

theorem countP_ge_eq_zero (l : List ℕ) (x : ℕ)
    (h : ∀ b ∈ l, x ≤ b) : l.countP (fun a => decide (a < x)) = 0 := by
  rw [List.countP_eq_zero]
  intro a ha
  simpa using Nat.not_lt.mpr (h a ha)

theorem sorted_get_lt_iff (l : List ℕ) (hs : l.Pairwise (· < ·)) (x : ℕ)
    (i : ℕ) (hi : i < l.length) :
    l.get ⟨i, hi⟩ < x ↔ i < l.countP (fun a => decide (a < x)) := by
  induction l generalizing i with
  | nil => simp at hi
  | cons a tl ih =>
    rcases List.pairwise_cons.mp hs with ⟨ha, hs2⟩
    have h0 : ¬ a < x → tl.countP (fun b => decide (b < x)) = 0 := fun hax =>
      countP_ge_eq_zero tl x (fun b hb => by have := ha b hb; omega)
    cases i with
    | zero =>
      simp only [List.get_eq_getElem, List.getElem_cons_zero]
      by_cases hax : a < x
      · simp only [List.countP_cons, hax]
        simp [hax]
      · rw [List.countP_cons, h0 hax]
        simp [hax]
    | succ j =>
      have hj : j < tl.length := by simpa using Nat.lt_of_succ_lt_succ hi
      simp only [List.get_eq_getElem, List.getElem_cons_succ]
      by_cases hax : a < x
      · have hih := ih hs2 j hj
        simp only [List.get_eq_getElem] at hih
        rw [List.countP_cons, hih]
        simp [hax]
      · have hjx : ¬ tl[j] < x := by
          have hmem : tl[j] ∈ tl := List.getElem_mem hj
          have := ha _ hmem
          omega
        rw [List.countP_cons, h0 hax]
        simp [hax, hjx]

theorem sorted_findIdx_ge (l : List ℕ) (hs : l.Pairwise (· < ·)) (x : ℕ) :
    l.findIdx (fun a => decide (x ≤ a)) = l.countP (fun a => decide (a < x)) := by
  induction l with
  | nil => simp
  | cons a tl ih =>
    rcases List.pairwise_cons.mp hs with ⟨ha, hs2⟩
    rw [List.findIdx_cons, List.countP_cons]
    by_cases hax : x ≤ a
    · have h0 : tl.countP (fun b => decide (b < x)) = 0 :=
        countP_ge_eq_zero tl x (fun b hb => by have := ha b hb; omega)
      simp [hax, h0, Nat.not_lt.mpr hax]
    · have hax2 : a < x := by omega
      simp [hax, hax2, ih hs2]

theorem countP_lt_add_ge (l : List ℕ) (x : ℕ) :
    l.countP (fun a => decide (a < x)) + l.countP (fun a => decide (x ≤ a))
      = l.length := by
  induction l with
  | nil => simp
  | cons a tl ih =>
    rw [List.countP_cons, List.countP_cons]
    by_cases hax : a < x
    · simp [hax, Nat.not_le.mpr hax]; omega
    · simp [hax, Nat.le_of_not_lt hax]; omega

theorem except_bind_ok {α β : Type} {e : Except Err α} {f : α → Except Err β}
    {v : β} (h : e >>= f = .ok v) : ∃ a, e = .ok a ∧ f a = .ok v := by
  cases e with
  | error err => simp only [Bind.bind, Except.bind] at h; cases h
  | ok a => exact ⟨a, rfl, by simpa only [Bind.bind, Except.bind] using h⟩

theorem except_bind_err {α β : Type} {e : Except Err α} {f : α → Except Err β}
    {err : Err} (h : e >>= f = .error err) :
    e = .error err ∨ ∃ a, e = .ok a ∧ f a = .error err := by
  cases e with
  | error e2 =>
    left
    have h2 : e2 = err := by
      simp only [Bind.bind, Except.bind] at h
      exact Except.error.inj h
    rw [h2]
  | ok a => exact .inr ⟨a, rfl, by simpa only [Bind.bind, Except.bind] using h⟩

theorem except_bind_ok_of {α β : Type} {e : Except Err α} {f : α → Except Err β}
    {a : α} (he : e = .ok a) : e >>= f = f a := by
  subst he; rfl

theorem pyGet_err (l : List α) (i : ℤ) (e : Err)
    (h : pyGet l i = .error e) : e = .indexError := by
  unfold pyGet at h
  split at h
  · cases h
  · split at h
    · cases h
    · cases h; rfl

theorem pyGetNat_err (l : List α) (n : ℕ) (e : Err)
    (h : pyGetNat l n = .error e) : e = .indexError :=
  pyGet_err l n e h

theorem mapM_pyGetNat_err {α : Type} (l : List α) (W : List ℕ) (e : Err)
    (h : W.mapM (pyGetNat l) = .error e) : e = .indexError := by
  induction W with
  | nil => rw [List.mapM_nil] at h; cases h
  | cons a tl ih =>
    rw [List.mapM_cons] at h
    rcases except_bind_err h with h1 | ⟨b, hb, h2⟩
    · exact pyGetNat_err l a e h1
    · rcases except_bind_err h2 with h3 | ⟨bs, hbs, h4⟩
      · exact ih h3
      · cases h4

theorem Kupdate_err (ph : List ℚ) (W : List ℕ) (e : Err)
    (h : Kupdate ph W = .error e) : e = .indexError := by
  unfold Kupdate at h
  split at h
  · cases h; exact pyGet_err _ _ _ (by assumption)
  · split at h
    · cases h; exact pyGet_err _ _ _ (by assumption)
    · split at h
      · cases h; exact pyGetNat_err _ _ _ (by assumption)
      · split at h
        · cases h; exact pyGetNat_err _ _ _ (by assumption)
        · cases h

theorem Kupdate_nil (ph : List ℚ) : Kupdate ph [] = .error .indexError := by
  unfold Kupdate
  rw [pyGet_nil]

theorem resolverTail_inl (c : RCtx) (s : RSt) (W : List ℕ) (lo hi ref : ℕ)
    (K : ℚ) (it : ℕ) (W2 : List ℕ) (p2 : P) (K2 : ℚ) (r2 : ℕ)
    (h : resolverTail c s W lo hi ref K it = .ok (.inl (W2, p2, K2, r2))) :
    W2 = W ∧ p2 = s.p ∧ K2 = K ∧ r2 = ref := by
  unfold resolverTail at h
  split at h
  · cases h
  · split at h
    · cases h; exact ⟨rfl, rfl, rfl, rfl⟩
    · split at h
      · cases h
      · split at h
        · cases h
        · cases h

theorem resolverTail_inr (c : RCtx) (s : RSt) (W : List ℕ) (lo hi ref : ℕ)
    (K : ℚ) (it : ℕ) (s2 : RSt)
    (h : resolverTail c s W lo hi ref K it = .ok (.inr s2)) :
    s2.idx_lo = lo ∧ s2.idx_hi = hi ∧ s2.idx_ref = ref ∧ s2.K = K ∧
    s2.it = it ∧ s2.old_idx_lo = s.old_idx_lo ∧
    s2.old_idx_hi = s.old_idx_hi ∧
    s2.interval_changed_on_it = s.interval_changed_on_it ∧ it ≤ 100 := by
  unfold resolverTail at h
  split at h
  · cases h
  · split at h
    · cases h
    · split at h
      · cases h
      · split at h
        · cases h
        · cases h
          refine ⟨rfl, rfl, rfl, rfl, rfl, rfl, rfl, rfl, by omega⟩

theorem resolverTail_err (c : RCtx) (s : RSt) (W : List ℕ) (lo hi ref : ℕ)
    (K : ℚ) (it : ℕ) (e : Err) (hit : it ≤ 100)
    (h : resolverTail c s W lo hi ref K it = .error e) : e = .indexError := by
  unfold resolverTail at h
  split at h
  · cases h; exact mapM_pyGetNat_err _ _ _ (by assumption)
  · split at h
    · cases h
    · split at h
      · cases h; exact mapM_pyGetNat_err _ _ _ (by assumption)
      · split at h
        · omega
        · cases h

theorem sorted_countP_between (l : List ℕ) (hs : l.Pairwise (· < ·))
    (x : ℕ) (k : ℕ) (hk : k + 1 < l.length)
    (h1 : l.get ⟨k, by omega⟩ < x) (h2 : x ≤ l.get ⟨k + 1, hk⟩) :
    l.countP (fun a => decide (a < x)) = k + 1 := by
  have hle : k + 1 ≤ l.countP (fun a => decide (a < x)) :=
    (sorted_get_lt_iff l hs x k (by omega)).mp h1
  have hge : ¬ (k + 1 < l.countP (fun a => decide (a < x))) := by
    intro hlt
    exact absurd ((sorted_get_lt_iff l hs x (k+1) hk).mpr hlt) (by omega)
  omega

theorem pyGet_ok_nonneg (l : List α) (i : ℤ) (v : α) (hi : 0 ≤ i)
    (h : pyGet l i = .ok v) :
    ∃ hlt : i.toNat < l.length, v = l.get ⟨i.toNat, hlt⟩ := by
  unfold pyGet at h
  split at h
  · cases h; exact ⟨by omega, rfl⟩
  · split at h
    · omega
    · cases h

theorem pyGet_ok_mem (l : List α) (i : ℤ) (v : α)
    (h : pyGet l i = .ok v) : v ∈ l := by
  unfold pyGet at h
  split at h
  · cases h; exact List.get_mem l _ _
  · split at h
    · cases h; exact List.get_mem l _ _
    · cases h

theorem pyGetNat_ok (l : List α) (n : ℕ) (v : α)
    (h : pyGetNat l n = .ok v) :
    ∃ hlt : n < l.length, v = l.get ⟨n, hlt⟩ := by
  obtain ⟨hlt, hv⟩ := pyGet_ok_nonneg l n v (by omega) h
  exact ⟨hlt, hv⟩

theorem valid_W_pairwise (fp : ℤ → ℕ → ℕ → P → List ℕ)
    (hvp : ValidPeaks fp) (sg : ℤ) (lo hi : ℕ) (p : P) :
    ((fp sg lo hi p).map (· + lo)).Pairwise (fun a b => a + 2 ≤ b) := by
  rw [List.pairwise_map]
  exact ((hvp sg lo hi p).1).imp (by intro a b hab; omega)

theorem valid_W_mem (fp : ℤ → ℕ → ℕ → P → List ℕ) (hvp : ValidPeaks fp)
    (sg : ℤ) (lo hi : ℕ) (p : P) (j : ℕ)
    (hj : j ∈ (fp sg lo hi p).map (· + lo)) :
    lo + 1 ≤ j ∧ j + 2 ≤ hi := by
  rcases List.mem_map.mp hj with ⟨a, ha, rfl⟩
  have h2 := (hvp sg lo hi p).2 a ha
  omega

theorem pairwise_lt_of_gap (W : List ℕ)
    (h : W.Pairwise (fun a b => a + 2 ≤ b)) : W.Pairwise (· < ·) :=
  h.imp (by intro a b hab; omega)

theorem pairwise_get_gap (W : List ℕ)
    (h : W.Pairwise (fun a b => a + 2 ≤ b)) (i j : ℕ)
    (hi : i < W.length) (hj : j < W.length) (hij : i < j) :
    W.get ⟨i, hi⟩ + 2 ≤ W.get ⟨j, hj⟩ :=
  List.pairwise_iff_get.mp h ⟨i, hi⟩ ⟨j, hj⟩ hij

/-- Main facts about the left-side correction: the reference index never
decreases; when it is shifted, the count of extrema left of the new
reference grows by exactly one; when no shift can happen the reference
is unchanged; and the too-many-extrema branch moves idx_lo up by at
least two. -/
theorem correctLeft_main (c : RCtx) (s : RSt) (W : List ℕ) (Nl Nr : ℕ)
    (K : ℚ) (glo gref gN : ℕ)
    (hW : W.Pairwise (fun a b => a + 2 ≤ b))
    (hmem : ∀ j ∈ W, s.idx_lo + 1 ≤ j)
    (hNl : Nl = W.countP (fun j => decide (j < s.idx_ref)))
    (hNr : Nr = W.countP (fun j => decide (s.idx_ref ≤ j)))
    (h : correctLeft c s W Nl Nr K = .ok (glo, gref, gN)) :
    s.idx_ref ≤ gref ∧
    (W.countP (fun j => decide (j < gref)) ≤ Nl + 1) ∧
    (¬ Nl < c.Nbefore → gref = s.idx_ref) ∧
    (c.Nbefore < Nl → s.idx_lo + 2 ≤ glo) := by
  have hWlt : W.Pairwise (· < ·) := pairwise_lt_of_gap W hW
  unfold correctLeft at h
  by_cases h1 : c.Nbefore < Nl
  · rw [if_pos h1] at h
    cases ha : pyGet W ((Nl : ℤ) - c.Nbefore - 1) with
    | error e => rw [ha] at h; cases h
    | ok a =>
      rw [ha] at h
      cases hb : pyGet W ((Nl : ℤ) - c.Nbefore) with
      | error e => rw [hb] at h; cases h
      | ok b =>
        rw [hb] at h
        cases h
        obtain ⟨hlt1, hv1⟩ := pyGet_ok_nonneg W _ a (by omega) ha
        obtain ⟨hlt2, hv2⟩ := pyGet_ok_nonneg W _ b (by omega) hb
        have hamem : a ∈ W := by rw [hv1]; exact List.get_mem W _ _
        have haval := hmem a hamem
        have hab : a + 2 ≤ b := by
          rw [hv1, hv2]
          exact pairwise_get_gap W hW _ _ hlt1 hlt2 (by omega)
        refine ⟨le_refl _, by rw [hNl]; omega, fun _ => rfl, fun _ => ?_⟩
        rw [Nat.le_div_iff_mul_le (by omega)]
        omega
  · rw [if_neg h1] at h
    by_cases h2 : Nl < c.Nbefore
    · rw [if_pos h2] at h
      by_cases h3 : s.idx_lo = 0
      · rw [if_pos h3] at h
        by_cases hinc : c.increase_idx_ref_if_needed = true
        · rw [if_pos hinc] at h
          by_cases h4 : 2 ≤ Nr
          · rw [if_pos h4] at h
            cases ha : pyGetNat W (argmaxGeNat W s.idx_ref) with
            | error e => rw [ha] at h; cases h
            | ok a =>
              rw [ha] at h
              cases hb : pyGetNat W (argmaxGeNat W s.idx_ref + 1) with
              | error e => rw [hb] at h; cases h
              | ok b =>
                rw [hb] at h
                cases h
                -- the shift case: gref = (a + b) / 2
                have hex : W.findIdx (fun x => decide (s.idx_ref ≤ x))
                    = W.countP (fun j => decide (j < s.idx_ref)) :=
                  sorted_findIdx_ge W hWlt s.idx_ref
                have hfound : W.findIdx (fun x => decide (s.idx_ref ≤ x))
                    ≠ W.length := by
                  intro hcon
                  have hsum := countP_lt_add_ge W s.idx_ref
                  rw [hex] at hcon
                  omega
                have htmp : argmaxGeNat W s.idx_ref
                    = W.countP (fun j => decide (j < s.idx_ref)) := by
                  unfold argmaxGeNat
                  rw [if_neg hfound, hex]
                obtain ⟨hlt1, hv1⟩ := pyGetNat_ok W _ a ha
                obtain ⟨hlt2, hv2⟩ := pyGetNat_ok W _ b hb
                have hanlt : ¬ a < s.idx_ref := by
                  rw [hv1]
                  rw [sorted_get_lt_iff W hWlt s.idx_ref _ hlt1]
                  rw [htmp]
                  omega
                have hab : a + 2 ≤ b := by
                  rw [hv1, hv2]
                  exact pairwise_get_gap W hW _ _ hlt1 hlt2 (by omega)
                have hmid1 : a + 1 ≤ (a + b) / 2 := by
                  rw [Nat.le_div_iff_mul_le (by omega)]
                  omega
                have hmid2 : (a + b) / 2 < b := by
                  rw [Nat.div_lt_iff_lt_mul (by omega)]
                  omega
                have hcount : W.countP (fun j => decide (j < (a + b) / 2))
                    = argmaxGeNat W s.idx_ref + 1 := by
                  apply sorted_countP_between W hWlt _ _ hlt2
                  · rw [← hv1]; omega
                  · rw [← hv2]; omega
                refine ⟨by omega, ?_, fun hcon => absurd h2 hcon, fun hcon => by omega⟩
                rw [hcount, htmp, hNl]
          · rw [if_neg h4] at h
            cases h
            exact ⟨le_refl _, by rw [hNl]; omega, fun _ => rfl, fun hcon => by omega⟩
        · rw [if_neg hinc] at h
          cases h
      · rw [if_neg h3] at h
        cases he0 : pyGet W 0 with
        | error e => rw [he0] at h; cases h
        | ok e0 =>
          simp only [he0] at h
          cases hph : pyGetNat c.d.phase22 e0 with
          | error e => simp only [hph] at h; cases h
          | ok ph0 =>
            simp only [hph] at h
            cases h
            exact ⟨le_refl _, by rw [hNl]; omega, fun _ => rfl,
                   fun hcon => by omega⟩
    · rw [if_neg h2] at h
      cases h
      exact ⟨le_refl _, by rw [hNl]; omega, fun _ => rfl, fun hcon => by omega⟩

/-- Error classification of the left correction. -/
theorem correctLeft_err (c : RCtx) (s : RSt) (W : List ℕ) (Nl Nr : ℕ)
    (K : ℚ) (e : Err) (h : correctLeft c s W Nl Nr K = .error e) :
    e = .indexError ∨ e = .insufficientLeft := by
  unfold correctLeft at h
  split at h
  · split at h
    · cases h; exact .inl (pyGet_err _ _ _ (by assumption))
    · split at h
      · cases h; exact .inl (pyGet_err _ _ _ (by assumption))
      · cases h
  · split at h
    · split at h
      · split at h
        · split at h
          · split at h
            · cases h; exact .inl (pyGetNat_err _ _ _ (by assumption))
            · split at h
              · cases h; exact .inl (pyGetNat_err _ _ _ (by assumption))
              · cases h
          · cases h
        · cases h; exact .inr rfl
      · split at h
        · cases h; exact .inl (pyGet_err _ _ _ (by assumption))
        · split at h
          · cases h; exact .inl (pyGetNat_err _ _ _ (by assumption))
          · cases h
    · cases h

/-- Error classification of the right correction. -/
theorem correctRight_err (c : RCtx) (s : RSt) (W : List ℕ) (glo gNr : ℕ)
    (K : ℚ) (it : ℕ) (e : Err)
    (h : correctRight c s W glo gNr K it = .error e) :
    e = .indexError ∨ e = .insufficientRight := by
  unfold correctRight at h
  split at h
  · split at h
    · cases h; exact .inl (pyGet_err _ _ _ (by assumption))
    · split at h
      · cases h; exact .inl (pyGet_err _ _ _ (by assumption))
      · cases h
  · split at h
    · split at h
      · split at h
        · cases h; exact .inl (pyGet_err _ _ _ (by assumption))
        · split at h
          · cases h; exact .inl (pyGetNat_err _ _ _ (by assumption))
          · cases h
      · split at h
        · split at h
          · cases h
          · cases h; exact .inr rfl
        · cases h
    · cases h

/-- Error classification of the correction-and-dispatch step. -/
theorem resolverCorrect_err (c : RCtx) (s : RSt) (W : List ℕ) (Nl Nr : ℕ)
    (K : ℚ) (it : ℕ) (e : Err) (hit : it ≤ 100)
    (h : resolverCorrect c s W Nl Nr K it = .error e) :
    e = .indexError ∨ e = .insufficientLeft ∨ e = .insufficientRight := by
  unfold resolverCorrect at h
  split at h
  · split at h
    · cases h
      rcases correctLeft_err _ _ _ _ _ _ _ (by assumption) with h1 | h1
      · exact .inl h1
      · exact .inr (.inl h1)
    · split at h
      · cases h
        rcases correctRight_err _ _ _ _ _ _ _ _ (by assumption) with h1 | h1
        · exact .inl h1
        · exact .inr (.inr h1)
      · split at h
        · cases h
        · exact .inl (resolverTail_err _ _ _ _ _ _ _ _ _ hit h)
  · exact .inl (resolverTail_err _ _ _ _ _ _ _ _ _ hit h)

/-- Error classification of one resolver iteration. -/
theorem resolverIter_err (c : RCtx) (s : RSt) (e : Err)
    (h : resolverIter c s = .error e) :
    e = .windowStall ∨ e = .emptyArray ∨ e = .fittingDomain ∨
    e = .indexError ∨ e = .insufficientLeft ∨ e = .insufficientRight := by
  simp only [resolverIter] at h
  by_cases h10 : 10 < s.it + 1
  · rw [if_pos h10] at h
    cases h; exact .inl rfl
  · rw [if_neg h10] at h
    cases hmx : ((c.d.t.drop s.idx_lo).take (s.idx_hi - s.idx_lo)).max? with
    | none => simp only [hmx] at h; cases h; exact .inr (.inl rfl)
    | some mx =>
      simp only [hmx] at h
      by_cases hT : s.p.T < mx
      · rw [if_pos hT] at h
        cases h; exact .inr (.inr (.inl rfl))
      · rw [if_neg hT] at h
        cases hK : Kupdate c.d.phase22
            ((c.d.findPeaks c.sign s.idx_lo s.idx_hi s.p).map
              (· + s.idx_lo)) with
        | error e2 =>
          simp only [hK] at h
          cases h
          exact .inr (.inr (.inr (.inl (Kupdate_err _ _ _ hK))))
        | ok K =>
          simp only [hK] at h
          rcases resolverCorrect_err _ _ _ _ _ _ _ _ (by omega) h
            with h1 | h1 | h1
          · exact .inr (.inr (.inr (.inl h1)))
          · exact .inr (.inr (.inr (.inr (.inl h1))))
          · exact .inr (.inr (.inr (.inr (.inr h1))))

/-- At a normal return of the correction-and-dispatch step the returned
extrema are the detected candidates, the returned reference is at least
the incoming one, and at most Nbefore extrema lie strictly left of the
returned reference. -/
theorem resolverCorrect_inl_spec (c : RCtx) (s : RSt) (W : List ℕ) (K : ℚ)
    (it : ℕ) (W2 : List ℕ) (p2 : P) (K2 : ℚ) (r2 : ℕ)
    (hW : W.Pairwise (fun a b => a + 2 ≤ b))
    (hmem : ∀ j ∈ W, s.idx_lo + 1 ≤ j)
    (hInv : s.old_idx_lo = -1 ∨ s.old_idx_lo = (s.idx_lo : ℤ))
    (h : resolverCorrect c s W (W.countP (fun j => decide (j < s.idx_ref)))
          (W.countP (fun j => decide (s.idx_ref ≤ j))) K it
          = .ok (.inl (W2, p2, K2, r2))) :
    W2 = W ∧ s.idx_ref ≤ r2 ∧
    W.countP (fun j => decide (j < r2)) ≤ c.Nbefore := by
  unfold resolverCorrect at h
  split at h
  · cases hcl : correctLeft c s W
        (W.countP (fun j => decide (j < s.idx_ref)))
        (W.countP (fun j => decide (s.idx_ref ≤ j))) K with
    | error e => rw [hcl] at h; cases h
    | ok tri =>
      obtain ⟨glo, gref, gN⟩ := tri
      simp only [hcl] at h
      cases hcr : correctRight c s W glo gN K it with
      | error e => simp only [hcr] at h; cases h
      | ok ghi =>
        simp only [hcr] at h
        split at h
        · cases h
        · rename_i hpair
          have hpe : ((glo : ℤ), (ghi : ℤ)) = (s.old_idx_lo, s.old_idx_hi) :=
            not_ne_iff.mp hpair
          obtain ⟨hW2, hp2, hK2, hr2⟩ :=
            resolverTail_inl c s W glo ghi gref K it W2 p2 K2 r2 h
          obtain ⟨hrg, hcnt, hrefeq, htoomany⟩ :=
            correctLeft_main c s W _ _ K glo gref gN hW hmem rfl rfl hcl
          refine ⟨hW2, by rw [hr2]; exact hrg, ?_⟩
          rw [hr2]
          rcases Nat.lt_trichotomy
              (W.countP (fun j => decide (j < s.idx_ref))) c.Nbefore
            with hlt | heq2 | hgt
          · omega
          · rw [hrefeq (by omega)]
            omega
          · exfalso
            have hglo := htoomany hgt
            have hgloeq : (glo : ℤ) = s.old_idx_lo := by
              have := congrArg Prod.fst hpe
              simpa using this
            rcases hInv with hm1 | hlo
            · omega
            · rw [hlo] at hgloeq
              have : glo = s.idx_lo := by exact_mod_cast hgloeq
              omega
  · rename_i heq
    push_neg at heq
    obtain ⟨hNl, hNr⟩ := heq
    obtain ⟨hW2, hp2, hK2, hr2⟩ :=
      resolverTail_inl c s W s.idx_lo s.idx_hi s.idx_ref K it W2 p2 K2 r2 h
    exact ⟨hW2, by rw [hr2], by rw [hr2]; omega⟩

/-- At a loop restart of the correction-and-dispatch step the reference
does not decrease, the iteration number is recorded, and the invariant
that old_idx_lo is either the initial -1 or the current idx_lo is
preserved. -/
theorem resolverCorrect_inr_spec (c : RCtx) (s : RSt) (W : List ℕ) (K : ℚ)
    (it : ℕ) (s2 : RSt)
    (hW : W.Pairwise (fun a b => a + 2 ≤ b))
    (hmem : ∀ j ∈ W, s.idx_lo + 1 ≤ j)
    (h : resolverCorrect c s W (W.countP (fun j => decide (j < s.idx_ref)))
          (W.countP (fun j => decide (s.idx_ref ≤ j))) K it
          = .ok (.inr s2)) :
    s.idx_ref ≤ s2.idx_ref ∧ s2.it = it ∧
    ((s.old_idx_lo = -1 ∨ s.old_idx_lo = (s.idx_lo : ℤ)) →
      (s2.old_idx_lo = -1 ∨ s2.old_idx_lo = (s2.idx_lo : ℤ))) := by
  unfold resolverCorrect at h
  split at h
  · cases hcl : correctLeft c s W
        (W.countP (fun j => decide (j < s.idx_ref)))
        (W.countP (fun j => decide (s.idx_ref ≤ j))) K with
    | error e => rw [hcl] at h; cases h
    | ok tri =>
      obtain ⟨glo, gref, gN⟩ := tri
      simp only [hcl] at h
      cases hcr : correctRight c s W glo gN K it with
      | error e => simp only [hcr] at h; cases h
      | ok ghi =>
        simp only [hcr] at h
        obtain ⟨hrg, hcnt, hrefeq, htoomany⟩ :=
          correctLeft_main c s W _ _ K glo gref gN hW hmem rfl rfl hcl
        split at h
        · cases h
          exact ⟨hrg, rfl, fun _ => .inr rfl⟩
        · rename_i hpair
          have hpe : ((glo : ℤ), (ghi : ℤ)) = (s.old_idx_lo, s.old_idx_hi) :=
            not_ne_iff.mp hpair
          obtain ⟨hlo2, hhi2, href2, hK2, hit2, hol2, hoh2, hic2, h100⟩ :=
            resolverTail_inr c s W glo ghi gref K it s2 h
          refine ⟨by omega, hit2, fun _ => .inr ?_⟩
          rw [hol2, hlo2]
          have := congrArg Prod.fst hpe
          simpa using this.symm
  · obtain ⟨hlo2, hhi2, href2, hK2, hit2, hol2, hoh2, hic2, h100⟩ :=
      resolverTail_inr c s W s.idx_lo s.idx_hi s.idx_ref K it s2 h
    refine ⟨by omega, hit2, fun hInv => ?_⟩
    rw [hol2, hlo2]
    exact hInv

/-- The iteration number of a restarted loop state is the current one,
with no well-formedness assumptions. -/
theorem resolverCorrect_inr_it (c : RCtx) (s : RSt) (W : List ℕ)
    (Nl Nr : ℕ) (K : ℚ) (it : ℕ) (s2 : RSt)
    (h : resolverCorrect c s W Nl Nr K it = .ok (.inr s2)) : s2.it = it := by
  unfold resolverCorrect at h
  split at h
  · split at h
    · cases h
    · split at h
      · cases h
      · split at h
        · cases h; rfl
        · exact (resolverTail_inr _ _ _ _ _ _ _ _ _ h).2.2.2.2.1
  · exact (resolverTail_inr _ _ _ _ _ _ _ _ _ h).2.2.2.2.1

/-- One iteration that restarts the loop has incremented the iteration
counter and stayed within the cap; no well-formedness assumptions. -/
theorem resolverIter_inr_it (c : RCtx) (s : RSt) (s2 : RSt)
    (h : resolverIter c s = .ok (.inr s2)) :
    s2.it = s.it + 1 ∧ s.it + 1 ≤ 10 := by
  simp only [resolverIter] at h
  by_cases h10 : 10 < s.it + 1
  · rw [if_pos h10] at h; cases h
  · rw [if_neg h10] at h
    cases hmx : ((c.d.t.drop s.idx_lo).take (s.idx_hi - s.idx_lo)).max? with
    | none => simp only [hmx] at h; cases h
    | some mx =>
      simp only [hmx] at h
      by_cases hT : s.p.T < mx
      · rw [if_pos hT] at h; cases h
      · rw [if_neg hT] at h
        cases hK : Kupdate c.d.phase22
            ((c.d.findPeaks c.sign s.idx_lo s.idx_hi s.p).map
              (· + s.idx_lo)) with
        | error e2 => simp only [hK] at h; cases h
        | ok K =>
          simp only [hK] at h
          exact ⟨resolverCorrect_inr_it _ _ _ _ _ _ _ _ h, by omega⟩

/-- Well-formed normal return of one resolver iteration: the reference
did not decrease, at most Nbefore of the returned extrema lie strictly
left of the returned reference, and the returned extrema are exactly the
detected candidates of the current window. -/
theorem resolverIter_inl_spec (c : RCtx) (s : RSt) (W2 : List ℕ) (p2 : P)
    (K2 : ℚ) (r2 : ℕ) (hvp : ValidPeaks c.d.findPeaks)
    (hInv : s.old_idx_lo = -1 ∨ s.old_idx_lo = (s.idx_lo : ℤ))
    (h : resolverIter c s = .ok (.inl (W2, p2, K2, r2))) :
    s.idx_ref ≤ r2 ∧ W2.countP (fun j => decide (j < r2)) ≤ c.Nbefore ∧
    W2 = (c.d.findPeaks c.sign s.idx_lo s.idx_hi s.p).map (· + s.idx_lo) := by
  simp only [resolverIter] at h
  by_cases h10 : 10 < s.it + 1
  · rw [if_pos h10] at h; cases h
  · rw [if_neg h10] at h
    cases hmx : ((c.d.t.drop s.idx_lo).take (s.idx_hi - s.idx_lo)).max? with
    | none => simp only [hmx] at h; cases h
    | some mx =>
      simp only [hmx] at h
      by_cases hT : s.p.T < mx
      · rw [if_pos hT] at h; cases h
      · rw [if_neg hT] at h
        cases hK : Kupdate c.d.phase22
            ((c.d.findPeaks c.sign s.idx_lo s.idx_hi s.p).map
              (· + s.idx_lo)) with
        | error e2 => simp only [hK] at h; cases h
        | ok K =>
          simp only [hK] at h
          obtain ⟨hW2, hr, hcnt⟩ := resolverCorrect_inl_spec c s
            ((c.d.findPeaks c.sign s.idx_lo s.idx_hi s.p).map (· + s.idx_lo))
            K (s.it + 1) W2 p2 K2 r2
            (valid_W_pairwise _ hvp _ _ _ _)
            (fun j hj => (valid_W_mem _ hvp _ _ _ _ j hj).1) hInv h
          exact ⟨hr, by rw [hW2]; exact hcnt, hW2⟩

/-- Well-formed loop restart of one resolver iteration: reference
monotone, counter incremented within the cap, invariant preserved. -/
theorem resolverIter_inr_spec (c : RCtx) (s : RSt) (s2 : RSt)
    (hvp : ValidPeaks c.d.findPeaks)
    (h : resolverIter c s = .ok (.inr s2)) :
    s.idx_ref ≤ s2.idx_ref ∧ s2.it = s.it + 1 ∧
    ((s.old_idx_lo = -1 ∨ s.old_idx_lo = (s.idx_lo : ℤ)) →
      (s2.old_idx_lo = -1 ∨ s2.old_idx_lo = (s2.idx_lo : ℤ))) := by
  simp only [resolverIter] at h
  by_cases h10 : 10 < s.it + 1
  · rw [if_pos h10] at h; cases h
  · rw [if_neg h10] at h
    cases hmx : ((c.d.t.drop s.idx_lo).take (s.idx_hi - s.idx_lo)).max? with
    | none => simp only [hmx] at h; cases h
    | some mx =>
      simp only [hmx] at h
      by_cases hT : s.p.T < mx
      · rw [if_pos hT] at h; cases h
      · rw [if_neg hT] at h
        cases hK : Kupdate c.d.phase22
            ((c.d.findPeaks c.sign s.idx_lo s.idx_hi s.p).map
              (· + s.idx_lo)) with
        | error e2 => simp only [hK] at h; cases h
        | ok K =>
          simp only [hK] at h
          exact resolverCorrect_inr_spec c s
            ((c.d.findPeaks c.sign s.idx_lo s.idx_hi s.p).map (· + s.idx_lo))
            K (s.it + 1) s2
            (valid_W_pairwise _ hvp _ _ _ _)
            (fun j hj => (valid_W_mem _ hvp _ _ _ _ j hj).1) h

/-- The resolver loop never exhausts its fuel when the fuel exceeds the
remaining iteration budget, and never raises the it greater than 100
non-convergence error. -/
theorem resolverLoop_err_class (c : RCtx) (fuel : ℕ) :
    ∀ (s : RSt) (e : Err), 11 - s.it < fuel →
    resolverLoop c fuel s = .error e →
    e ≠ .fuelExhausted ∧ e ≠ .resolverNonConvergence := by
  induction fuel with
  | zero => intro s e hs h; omega
  | succ n ih =>
    intro s e hs h
    unfold resolverLoop at h
    cases hit : resolverIter c s with
    | error e2 =>
      rw [hit] at h
      cases h
      rcases resolverIter_err c s _ hit with h1|h1|h1|h1|h1|h1 <;>
        rw [h1] <;> refine ⟨?_, ?_⟩ <;> decide
    | ok out =>
      cases out with
      | inl r => simp only [hit] at h; cases h
      | inr s2 =>
        simp only [hit] at h
        obtain ⟨hit2, hcap⟩ := resolverIter_inr_it c s s2 hit
        exact ih s2 e (by omega) h

/-- Normal returns of the resolver loop: reference monotone from the
initial state, count bound, and the result is one oracle answer. -/
theorem resolverLoop_ok_spec (c : RCtx) (hvp : ValidPeaks c.d.findPeaks)
    (fuel : ℕ) :
    ∀ (s : RSt) (W : List ℕ) (p2 : P) (K2 : ℚ) (r2 : ℕ),
    (s.old_idx_lo = -1 ∨ s.old_idx_lo = (s.idx_lo : ℤ)) →
    resolverLoop c fuel s = .ok (W, p2, K2, r2) →
    s.idx_ref ≤ r2 ∧ W.countP (fun j => decide (j < r2)) ≤ c.Nbefore ∧
    ∃ lo hi q, W = (c.d.findPeaks c.sign lo hi q).map (· + lo) := by
  induction fuel with
  | zero =>
    intro s W p2 K2 r2 hInv h
    unfold resolverLoop at h
    cases h
  | succ n ih =>
    intro s W p2 K2 r2 hInv h
    unfold resolverLoop at h
    cases hit : resolverIter c s with
    | error e => rw [hit] at h; cases h
    | ok out =>
      cases out with
      | inl r =>
        simp only [hit] at h
        cases h
        obtain ⟨h1, h2, h3⟩ := resolverIter_inl_spec c s W p2 K2 r2 hvp hInv hit
        exact ⟨h1, h2, s.idx_lo, s.idx_hi, s.p, h3⟩
      | inr s2 =>
        simp only [hit] at h
        obtain ⟨hr, hit2, hinv2⟩ := resolverIter_inr_spec c s s2 hvp hit
        obtain ⟨h1, h2, h3⟩ := ih s2 W p2 K2 r2 (hinv2 hInv) h
        exact ⟨le_trans hr h1, h2, h3⟩

/-- Normal returns of FindExtremaNearIdxRef with a well-formed peak
primitive: the returned reference is at least the argument reference, at
most Nbefore returned extrema lie strictly left of the returned
reference, and the result is the primitive's answer for some window. -/
theorem FindExtremaNearIdxRef_ok_spec (d : DEnv) (idx_ref : ℕ) (sign : ℤ)
    (Nb Na : ℕ) (K : ℚ) (p : P) (bounds : List (List ℚ)) (TOL : ℚ)
    (inc : Bool) (W : List ℕ) (p2 : P) (K2 : ℚ) (r2 : ℕ)
    (hvp : ValidPeaks d.findPeaks)
    (h : FindExtremaNearIdxRef d idx_ref sign Nb Na K p bounds TOL inc
          = .ok (W, p2, K2, r2)) :
    idx_ref ≤ r2 ∧ W.countP (fun j => decide (j < r2)) ≤ Nb ∧
    ∃ lo hi q, W = (d.findPeaks sign lo hi q).map (· + lo) := by
  simp only [FindExtremaNearIdxRef] at h
  cases hphr : pyGetNat d.phase22 idx_ref with
  | error e => simp only [hphr] at h; cases h
  | ok phr =>
    simp only [hphr] at h
    exact resolverLoop_ok_spec ⟨d, sign, Nb, Na, bounds, TOL, inc⟩ hvp 12 _
      W p2 K2 r2 (.inl rfl) h

theorem pyGet_zero (l : List α) (x : α) (h : l.head? = some x) :
    pyGet l 0 = .ok x := by
  cases l with
  | nil => cases h
  | cons a tl =>
    have hx : x = a := by
      simp only [List.head?_cons] at h
      exact (Option.some.inj h).symm
    subst hx
    unfold pyGet
    rw [dif_pos ⟨le_refl _, by simp⟩]
    rfl

/-- Value of the K re-estimation on a nonempty candidate list with
readable phase entries. -/
theorem Kupdate_ok_formula (ph : List ℚ) (W : List ℕ) (eL e0 : ℕ)
    (phL ph0 : ℚ) (hL : W.getLast? = some eL) (h0 : W.head? = some e0)
    (hpL : pyGetNat ph eL = .ok phL) (hp0 : pyGetNat ph e0 = .ok ph0) :
    Kupdate ph W
      = .ok ((phL - ph0) / (4 * pi * ((W.length : ℚ) - 1))) := by
  have hne : W ≠ [] := by intro hc; subst hc; cases hL
  have hgl : W.getLast hne = eL := by
    have h2 := List.getLast?_eq_getLast W hne
    rw [h2] at hL
    exact Option.some.inj hL
  unfold Kupdate
  simp only [pyGet_neg_one W hne, hgl]
  simp only [pyGet_zero W e0 h0, hpL, hp0]

/-- Every outcome of the correction-and-dispatch step carries the K value
computed at the start of the iteration. -/
theorem resolverCorrect_K (c : RCtx) (s : RSt) (W : List ℕ) (Nl Nr : ℕ)
    (K : ℚ) (it : ℕ) :
    (∀ W2 p2 K2 r2,
      resolverCorrect c s W Nl Nr K it = .ok (.inl (W2, p2, K2, r2)) →
      K2 = K) ∧
    (∀ s2, resolverCorrect c s W Nl Nr K it = .ok (.inr s2) →
      s2.K = K) := by
  constructor
  · intro W2 p2 K2 r2 h
    unfold resolverCorrect at h
    split at h
    · split at h
      · cases h
      · split at h
        · cases h
        · split at h
          · cases h
          · exact (resolverTail_inl _ _ _ _ _ _ _ _ _ _ _ _ h).2.2.1
    · exact (resolverTail_inl _ _ _ _ _ _ _ _ _ _ _ _ h).2.2.1
  · intro s2 h
    unfold resolverCorrect at h
    split at h
    · split at h
      · cases h
      · split at h
        · cases h
        · split at h
          · cases h; rfl
          · exact (resolverTail_inr _ _ _ _ _ _ _ _ _ h).2.2.2.1
    · exact (resolverTail_inr _ _ _ _ _ _ _ _ _ h).2.2.2.1

section ValidOracles

attribute [local semireducible] Rat.add Rat.mul Rat.sub Rat.inv Rat.ofScientific

set_option maxRecDepth 100000

theorem validPeaks_peaksA : ValidPeaks peaksA := by
  intro sg lo hi p
  unfold peaksA
  split
  · rename_i h1
    obtain ⟨rfl, rfl⟩ := h1
    exact ⟨by decide, by decide⟩
  · split
    · rename_i h1 h2
      obtain ⟨rfl, rfl⟩ := h2
      exact ⟨by decide, by decide⟩
    · exact ⟨List.Pairwise.nil, by simp⟩

set_option maxRecDepth 1000000 in
theorem resolverA_run1 :
    FindExtremaNearIdxRef envA 23 1 4 3 (6 / 5) ⟨1, 3 / 176, 0⟩
      [[0, 0, (4 / 5) * (-1)], [1, 10 / 22, 22]] (1 / 10 ^ 8) true
      = .ok ([3, 7, 11, 15, 25, 29, 33], ⟨1, 3 / 176, 0⟩, 60 / (24 * pi),
             23) := by
  decide

end ValidOracles

/-- Claim C5: within one resolver call the reference index never
decreases (both at each update site inside the left correction and from
argument to returned value), and the midpoint reference the driver
passes to the next call is at least the reference the previous call
returned. -/
theorem claim_C5_theorem (d : DEnv) (idx_ref : ℕ) (sign : ℤ) (Nb Na : ℕ)
    (K : ℚ) (p : P) (bounds : List (List ℚ)) (TOL : ℚ) (inc : Bool)
    (W : List ℕ) (p2 : P) (K2 : ℚ) (r2 : ℕ)
    (hvp : ValidPeaks d.findPeaks)
    (h : FindExtremaNearIdxRef d idx_ref sign Nb Na K p bounds TOL inc
          = .ok (W, p2, K2, r2)) :
    idx_ref ≤ r2 ∧
    (Nb + 2 ≤ W.length → r2 ≤ (W.getD Nb 0 + W.getD (Nb + 1) 0) / 2) ∧
    (∀ (s : RSt) (glo gref gN : ℕ) (Kq : ℚ),
      correctLeft ⟨d, sign, Nb, Na, bounds, TOL, inc⟩ s
          ((d.findPeaks sign s.idx_lo s.idx_hi s.p).map (· + s.idx_lo))
          (((d.findPeaks sign s.idx_lo s.idx_hi s.p).map
              (· + s.idx_lo)).countP (fun j => decide (j < s.idx_ref)))
          (((d.findPeaks sign s.idx_lo s.idx_hi s.p).map
              (· + s.idx_lo)).countP (fun j => decide (s.idx_ref ≤ j)))
          Kq = .ok (glo, gref, gN) →
      s.idx_ref ≤ gref) := by
  obtain ⟨h1, h2, lo, hi, q, h3⟩ :=
    FindExtremaNearIdxRef_ok_spec d idx_ref sign Nb Na K p bounds TOL inc
      W p2 K2 r2 hvp h
  have hWgap : W.Pairwise (fun a b => a + 2 ≤ b) := by
    rw [h3]; exact valid_W_pairwise _ hvp _ _ _ _
  have hWlt : W.Pairwise (· < ·) := pairwise_lt_of_gap W hWgap
  refine ⟨h1, fun hlen => ?_, fun s glo gref gN Kq hcl => ?_⟩
  · have hNb : Nb < W.length := by omega
    have hNb1 : Nb + 1 < W.length := by omega
    have hx : r2 ≤ W.get ⟨Nb, hNb⟩ := by
      by_contra hc
      push_neg at hc
      have := (sorted_get_lt_iff W hWlt r2 Nb hNb).mp hc
      omega
    have hxy : W.get ⟨Nb, hNb⟩ ≤ W.get ⟨Nb + 1, hNb1⟩ := by
      have := pairwise_get_gap W hWgap Nb (Nb + 1) hNb hNb1 (by omega)
      omega
    have hgd1 : W.getD Nb 0 = W.get ⟨Nb, hNb⟩ := by
      rw [List.getD_eq_getElem?_getD, List.getElem?_eq_getElem hNb]
      rfl
    have hgd2 : W.getD (Nb + 1) 0 = W.get ⟨Nb + 1, hNb1⟩ := by
      rw [List.getD_eq_getElem?_getD, List.getElem?_eq_getElem hNb1]
      rfl
    rw [hgd1, hgd2]
    rw [Nat.le_div_iff_mul_le (by omega)]
    omega
  · exact (correctLeft_main _ s _ _ _ Kq glo gref gN
      (valid_W_pairwise _ hvp _ _ _ _)
      (fun j hj => (valid_W_mem _ hvp _ _ _ _ j hj).1) rfl rfl hcl).1

/-- Claim C5, witness at the first resolver call of scenario A. -/
theorem claim_C5_witness :
    (23 ≤ 23) ∧
    ((4 : ℕ) + 2 ≤ ([3, 7, 11, 15, 25, 29, 33] : List ℕ).length →
      23 ≤ (([3, 7, 11, 15, 25, 29, 33] : List ℕ).getD 4 0
             + ([3, 7, 11, 15, 25, 29, 33] : List ℕ).getD 5 0) / 2) ∧
    (∀ (s : RSt) (glo gref gN : ℕ) (Kq : ℚ),
      correctLeft ⟨envA, 1, 4, 3,
          [[0, 0, (4 / 5) * (-1)], [1, 10 / 22, 22]], 1 / 10 ^ 8, true⟩ s
          ((envA.findPeaks 1 s.idx_lo s.idx_hi s.p).map (· + s.idx_lo))
          (((envA.findPeaks 1 s.idx_lo s.idx_hi s.p).map
              (· + s.idx_lo)).countP (fun j => decide (j < s.idx_ref)))
          (((envA.findPeaks 1 s.idx_lo s.idx_hi s.p).map
              (· + s.idx_lo)).countP (fun j => decide (s.idx_ref ≤ j)))
          Kq = .ok (glo, gref, gN) →
      s.idx_ref ≤ gref) := by
  exact claim_C5_theorem envA 23 1 4 3 (6 / 5) ⟨1, 3 / 176, 0⟩
    [[0, 0, (4 / 5) * (-1)], [1, 10 / 22, 22]] (1 / 10 ^ 8) true
    [3, 7, 11, 15, 25, 29, 33] ⟨1, 3 / 176, 0⟩ (60 / (24 * pi)) 23
    validPeaks_peaksA resolverA_run1

/-- Claim C6 (amended): the resolver enforces one iteration counter
checked at the top of its single loop; every call returns or raises
within that budget (the fuel marker is unreachable) and the secondary
it greater than 100 cap can never fire, whatever the data and the
primitives do. -/
theorem claim_C6_theorem (d : DEnv) (idx_ref : ℕ) (sign : ℤ) (Nb Na : ℕ)
    (K : ℚ) (p : P) (bounds : List (List ℚ)) (TOL : ℚ) (inc : Bool) :
    FindExtremaNearIdxRef d idx_ref sign Nb Na K p bounds TOL inc
      ≠ .error .fuelExhausted ∧
    FindExtremaNearIdxRef d idx_ref sign Nb Na K p bounds TOL inc
      ≠ .error .resolverNonConvergence := by
  have key : ∀ e : Err,
      FindExtremaNearIdxRef d idx_ref sign Nb Na K p bounds TOL inc
        = .error e →
      e ≠ .fuelExhausted ∧ e ≠ .resolverNonConvergence := by
    intro e h
    simp only [FindExtremaNearIdxRef] at h
    cases hphr : pyGetNat d.phase22 idx_ref with
    | error e2 =>
      simp only [hphr] at h
      cases h
      have he2 := pyGetNat_err _ _ _ hphr
      rw [he2]
      refine ⟨?_, ?_⟩ <;> decide
    | ok phr =>
      simp only [hphr] at h
      exact resolverLoop_err_class _ 12 _ e (by omega) h
  constructor
  · intro h; exact (key _ h).1 rfl
  · intro h; exact (key _ h).2 rfl

/-- Claim C8: whenever one resolver iteration proceeds past peak
detection with at least two candidates, every outcome of the iteration
carries the re-estimated K value
(phase22 at the last candidate minus phase22 at the first candidate)
divided by 4*pi*(count - 1). -/
theorem claim_C8_theorem (c : RCtx) (s : RSt) (W : List ℕ) (eL e0 : ℕ)
    (phL ph0 : ℚ)
    (hW : (c.d.findPeaks c.sign s.idx_lo s.idx_hi s.p).map (· + s.idx_lo)
           = W)
    (hlen : 2 ≤ W.length)
    (hL : W.getLast? = some eL) (h0 : W.head? = some e0)
    (hpL : pyGetNat c.d.phase22 eL = .ok phL)
    (hp0 : pyGetNat c.d.phase22 e0 = .ok ph0) :
    (∀ W2 p2 K2 r2, resolverIter c s = .ok (.inl (W2, p2, K2, r2)) →
      K2 = (phL - ph0) / (4 * pi * ((W.length : ℚ) - 1))) ∧
    (∀ s2, resolverIter c s = .ok (.inr s2) →
      s2.K = (phL - ph0) / (4 * pi * ((W.length : ℚ) - 1))) := by
  have hKup := Kupdate_ok_formula c.d.phase22 W eL e0 phL ph0 hL h0 hpL hp0
  constructor
  · intro W2 p2 K2 r2 h
    simp only [resolverIter, hW] at h
    by_cases h10 : 10 < s.it + 1
    · rw [if_pos h10] at h; cases h
    · rw [if_neg h10] at h
      cases hmx : ((c.d.t.drop s.idx_lo).take (s.idx_hi - s.idx_lo)).max? with
      | none => simp only [hmx] at h; cases h
      | some mx =>
        simp only [hmx] at h
        by_cases hT : s.p.T < mx
        · rw [if_pos hT] at h; cases h
        · rw [if_neg hT] at h
          simp only [hKup] at h
          exact (resolverCorrect_K c s W _ _ _ _).1 W2 p2 K2 r2 h
  · intro s2 h
    simp only [resolverIter, hW] at h
    by_cases h10 : 10 < s.it + 1
    · rw [if_pos h10] at h; cases h
    · rw [if_neg h10] at h
      cases hmx : ((c.d.t.drop s.idx_lo).take (s.idx_hi - s.idx_lo)).max? with
      | none => simp only [hmx] at h; cases h
      | some mx =>
        simp only [hmx] at h
        by_cases hT : s.p.T < mx
        · rw [if_pos hT] at h; cases h
        · rw [if_neg hT] at h
          simp only [hKup] at h
          exact (resolverCorrect_K c s W _ _ _ _).2 s2 h

/-- Claim C1 (amended): evaluation of the envelope model fails with the
domain error exactly when max(times) exceeds T strictly; when
max(times) is at most T (equality included) it returns the trend values
A*(T-t)^n with n = -(T-t0)*f1/f0 and A = f0*(T-t0)^(-n), rpow standing
for the float power primitive. -/
theorem claim_C1_theorem (rpow : ℚ → ℚ → ℚ) (t0 : ℚ) (ts : List ℚ)
    (f0 f1 T m : ℚ) (hm : ts.max? = some m) :
    (T < m → envelope_call rpow t0 ts f0 f1 T = .error .fittingDomain) ∧
    (m ≤ T → envelope_call rpow t0 ts f0 f1 T =
      .ok (ts.map (fun t =>
        (f0 * rpow (T - t0) (-(-(T - t0) * f1 / f0))) *
          rpow (T - t) (-(T - t0) * f1 / f0)))) := by
  unfold envelope_call envAmplitude envExponent
  simp only [hm]
  constructor
  · intro h
    rw [if_pos h]
  · intro h
    rw [if_neg (not_lt.mpr h)]

theorem pyGetNat_getD (l : List ℕ) (n : ℕ) (h : n < l.length) :
    pyGet l (n : ℤ) = .ok (l.getD n 0) := by
  rw [pyGet_ofNat l n h]
  refine congrArg Except.ok ?_
  rw [List.getD_eq_getElem?_getD, List.getElem?_eq_getElem h,
    List.get_eq_getElem]
  rfl

/-- Full characterisation of the post-resolver part of one driver pass
when the accesses at N, N+1 and N+2 are in bounds. -/
theorem driverHandle_char (N count : ℕ) (ex W : List ℕ) (p : P) (K : ℚ)
    (r : ℕ) (h : N + 3 ≤ W.length) :
    driverHandle N count ex (W, p, K, r) =
      if W.length ≤ 2 * N then .ok (.inl (ex ++ [W.getD N 0]))
      else if 1000 < count then .error .runawayLoop
      else .ok (.inr ⟨ex ++ [W.getD N 0], p, K,
        (W.getD (N + 1) 0 + W.getD (N + 2) 0) / 2, count⟩) := by
  have e1 : pyGet W (N : ℤ) = .ok (W.getD N 0) :=
    pyGetNat_getD W N (by omega)
  have c2 : ((N : ℤ) + 1) = ((N + 1 : ℕ) : ℤ) := by push_cast; ring
  have c3 : ((N : ℤ) + 2) = ((N + 2 : ℕ) : ℤ) := by push_cast; ring
  have e2 : pyGet W ((N : ℤ) + 1) = .ok (W.getD (N + 1) 0) := by
    rw [c2]; exact pyGetNat_getD W (N + 1) (by omega)
  have e3 : pyGet W ((N : ℤ) + 2) = .ok (W.getD (N + 2) 0) := by
    rw [c3]; exact pyGetNat_getD W (N + 2) (by omega)
  unfold driverHandle
  simp only [e1, e2, e3]

/-- Claim C3 (amended): a driver pass on a resolver result with at least
N + 3 extrema appends the extremum at position N, advances the reference
to the midpoint of the extrema at positions N+1 and N+2, and terminates
the walk normally exactly when the result has at most 2N extrema
(the source break condition is len(idx_extrema) <= 2*N, so a result of
exactly 2N extrema terminates too). -/
theorem claim_C3_theorem (N count : ℕ) (ex W : List ℕ) (p : P) (K : ℚ)
    (r : ℕ) (h : N + 3 ≤ W.length) :
    driverHandle N count ex (W, p, K, r) =
      if W.length ≤ 2 * N then .ok (.inl (ex ++ [W.getD N 0]))
      else if 1000 < count then .error .runawayLoop
      else .ok (.inr ⟨ex ++ [W.getD N 0], p, K,
        (W.getD (N + 1) 0 + W.getD (N + 2) 0) / 2, count⟩) :=
  driverHandle_char N count ex W p K r h

/-- Claim C3, witness on a seven-element resolver result. -/
theorem claim_C3_witness :
    driverHandle 3 1 [] ([3, 7, 11, 15, 25, 29, 33], ⟨0, 0, 0⟩, 0, 23) =
      if ([3, 7, 11, 15, 25, 29, 33] : List ℕ).length ≤ 2 * 3 then
        .ok (.inl ([] ++ [([3, 7, 11, 15, 25, 29, 33] : List ℕ).getD 3 0]))
      else if 1000 < 1 then .error .runawayLoop
      else .ok (.inr ⟨[] ++ [([3, 7, 11, 15, 25, 29, 33] : List ℕ).getD 3 0],
        ⟨0, 0, 0⟩, 0,
        (([3, 7, 11, 15, 25, 29, 33] : List ℕ).getD 4 0
          + ([3, 7, 11, 15, 25, 29, 33] : List ℕ).getD 5 0) / 2, 1⟩) :=
  claim_C3_theorem 3 1 [] [3, 7, 11, 15, 25, 29, 33] ⟨0, 0, 0⟩ 0 23
    (by decide)

/-- Claim C10 (amended): for every resolver result with at least N + 3
extrema the three driver accesses are in bounds and the pass succeeds,
appending exactly the extremum at position N whether or not the result
is short; the resolver can however return fewer than N + 3 extrema
(contrary to its documented contract), and then find_extrema raises an
IndexError. -/
theorem claim_C10_theorem (N count : ℕ) (ex W : List ℕ) (p : P) (K : ℚ)
    (r : ℕ) (h : N + 3 ≤ W.length) (hc : count ≤ 1000) :
    driverHandle N count ex (W, p, K, r) =
      .ok (if W.length ≤ 2 * N then .inl (ex ++ [W.getD N 0])
           else .inr ⟨ex ++ [W.getD N 0], p, K,
             (W.getD (N + 1) 0 + W.getD (N + 2) 0) / 2, count⟩) := by
  rw [driverHandle_char N count ex W p K r h]
  by_cases hshort : W.length ≤ 2 * N
  · rw [if_pos hshort, if_pos hshort]
  · rw [if_neg hshort, if_neg hshort, if_neg (by omega)]

/-- Claim C10, witness on a six-element (short, end-of-data) resolver
result: the pass still succeeds and appends position N. -/
theorem claim_C10_witness :
    driverHandle 3 2 [15] ([9, 11, 13, 15, 31, 35], ⟨0, 0, 0⟩, 0, 27) =
      .ok (if ([9, 11, 13, 15, 31, 35] : List ℕ).length ≤ 2 * 3 then
        .inl ([15] ++ [([9, 11, 13, 15, 31, 35] : List ℕ).getD 3 0])
      else .inr ⟨[15] ++ [([9, 11, 13, 15, 31, 35] : List ℕ).getD 3 0],
        ⟨0, 0, 0⟩, 0,
        (([9, 11, 13, 15, 31, 35] : List ℕ).getD 4 0
          + ([9, 11, 13, 15, 31, 35] : List ℕ).getD 5 0) / 2, 2⟩) :=
  claim_C10_theorem 3 2 [15] [9, 11, 13, 15, 31, 35] ⟨0, 0, 0⟩ 0 27
    (by decide) (by decide)

/-- Claim C9 (amended): in any resolver iteration within the iteration
cap and past the envelope domain guard, zero candidates from the peak
primitive make the iteration fail with an IndexError at the K
re-estimation step; with exactly one candidate the denominator
4*pi*(count-1) is zero but the call proceeds (in float arithmetic K
becomes nan with only a warning) and can even return normally. -/
theorem claim_C9_theorem (c : RCtx) (s : RSt) (mx : ℚ)
    (h10 : s.it + 1 ≤ 10)
    (hpk : c.d.findPeaks c.sign s.idx_lo s.idx_hi s.p = [])
    (hmx : ((c.d.t.drop s.idx_lo).take (s.idx_hi - s.idx_lo)).max?
            = some mx)
    (hT : ¬ s.p.T < mx) :
    resolverIter c s = .error .indexError := by
  simp only [resolverIter, hpk, List.map_nil, hmx, Kupdate_nil]
  rw [if_neg (show ¬ 10 < s.it + 1 by omega), if_neg hT]

theorem resolverLoop_not_insufficient (c : RCtx) (fuel : ℕ) :
    ∀ s, resolverLoop c fuel s ≠ .error .insufficientData := by
  induction fuel with
  | zero =>
    intro s h
    unfold resolverLoop at h
    simp at h
  | succ n ih =>
    intro s h
    unfold resolverLoop at h
    cases hit : resolverIter c s with
    | error e2 =>
      rw [hit] at h
      cases h
      rcases resolverIter_err c s _ hit with h1|h1|h1|h1|h1|h1 <;>
        exact Err.noConfusion h1
    | ok out =>
      cases out with
      | inl r => simp only [hit] at h; cases h
      | inr s2 => simp only [hit] at h; exact ih s2 h

theorem FindExtremaNearIdxRef_not_insufficient (d : DEnv) (idx_ref : ℕ)
    (sign : ℤ) (Nb Na : ℕ) (K : ℚ) (p : P) (bounds : List (List ℚ))
    (TOL : ℚ) (inc : Bool) :
    FindExtremaNearIdxRef d idx_ref sign Nb Na K p bounds TOL inc
      ≠ .error .insufficientData := by
  intro h
  simp only [FindExtremaNearIdxRef] at h
  cases hphr : pyGetNat d.phase22 idx_ref with
  | error e =>
    simp only [hphr] at h
    cases h
    exact Err.noConfusion (pyGetNat_err _ _ _ hphr)
  | ok phr =>
    simp only [hphr] at h
    exact resolverLoop_not_insufficient _ 12 _ h

theorem driverHandle_err_class (N count : ℕ) (ex : List ℕ)
    (r : ResolverRet) (e : Err) (h : driverHandle N count ex r = .error e) :
    e = .indexError ∨ e = .runawayLoop := by
  obtain ⟨W, p, K, ref⟩ := r
  simp only [driverHandle] at h
  cases h1 : pyGet W (N : ℤ) with
  | error e1 =>
    simp only [h1] at h
    cases h
    exact .inl (pyGet_err _ _ _ h1)
  | ok ex1 =>
    simp only [h1] at h
    cases h2 : pyGet W ((N : ℤ) + 1) with
    | error e1 =>
      simp only [h2] at h
      cases h
      exact .inl (pyGet_err _ _ _ h2)
    | ok a =>
      simp only [h2] at h
      cases h3 : pyGet W ((N : ℤ) + 2) with
      | error e1 =>
        simp only [h3] at h
        cases h
        exact .inl (pyGet_err _ _ _ h3)
      | ok b =>
        simp only [h3] at h
        by_cases h4 : W.length ≤ 2 * N
        · rw [if_pos h4] at h
          cases h
        · rw [if_neg h4] at h
          by_cases h5 : 1000 < count
          · rw [if_pos h5] at h
            cases h
            exact .inr rfl
          · rw [if_neg h5] at h
            cases h

theorem driverLoop_not_insufficient (d : DEnv) (sign : ℤ) (N : ℕ)
    (bounds0 : List (List ℚ)) (fuel : ℕ) :
    ∀ s, driverLoop d sign N bounds0 fuel s ≠ .error .insufficientData := by
  induction fuel with
  | zero =>
    intro s h
    unfold driverLoop at h
    simp at h
  | succ n ih =>
    intro s h
    unfold driverLoop at h
    cases hF : FindExtremaNearIdxRef d s.idx_ref sign (N + 1) N s.K s.p
        bounds0 (1 / 10 ^ 8) true with
    | error e =>
      rw [hF] at h
      cases h
      exact FindExtremaNearIdxRef_not_insufficient _ _ _ _ _ _ _ _ _ _ hF
    | ok r =>
      simp only [hF] at h
      cases hH : driverHandle N (s.count + 1) s.extrema r with
      | error e =>
        rw [hH] at h
        cases h
        rcases driverHandle_err_class _ _ _ _ _ hH with h1 | h1 <;>
          exact Err.noConfusion h1
      | ok out =>
        cases out with
        | inl out2 => simp only [hH] at h; cases h
        | inr s2 => simp only [hH] at h; exact ih s2 h

theorem pi_pos : 0 < pi := by unfold pi; norm_num

theorem findIdx_eq_length_iff {α : Type} (p : α → Bool) (xs : List α) :
    xs.findIdx p = xs.length ↔ ∀ x ∈ xs, p x = false := by
  induction xs with
  | nil => simp
  | cons a tl ih =>
    rw [List.findIdx_cons, List.length_cons]
    by_cases hpa : p a = true
    · simp only [hpa, cond_true]
      constructor
      · intro h; exact absurd h (by omega)
      · intro h
        exact absurd (h a (List.mem_cons_self a tl)) (by simp [hpa])
    · have hpa' : p a = false := by
        cases hh : p a
        · rfl
        · exact absurd hh hpa
      simp only [hpa', cond_false]
      constructor
      · intro h x hx
        rcases List.mem_cons.mp hx with rfl | hx2
        · exact hpa'
        · exact (ih.mp (by omega)) x hx2
      · intro h
        have h2 : tl.findIdx p = tl.length :=
          ih.mpr (fun x hx => h x (List.mem_cons_of_mem a hx))
        omega

theorem argmaxGt_eq_zero_iff (xs : List ℚ) (c x0 : ℚ)
    (h0 : xs.head? = some x0) (hle : x0 ≤ c) :
    (argmaxGt xs c = 0 ↔ ∀ x ∈ xs, x ≤ c) := by
  cases xs with
  | nil => cases h0
  | cons a tl =>
    have h1 : a = x0 := by
      have h2 : some a = some x0 := h0
      injection h2
    subst h1
    have hpa : decide (c < a) = false := by
      simp only [decide_eq_false_iff_not]
      exact not_lt.mpr hle
    simp only [argmaxGt, List.findIdx_cons, hpa, cond_false, List.length_cons]
    by_cases hfi : tl.findIdx (fun x => decide (c < x)) = tl.length
    · rw [if_pos (by omega)]
      constructor
      · intro _ x hx
        rcases List.mem_cons.mp hx with rfl | hx2
        · exact hle
        · have h3 := (findIdx_eq_length_iff _ tl).mp hfi x hx2
          simp only [decide_eq_false_iff_not] at h3
          exact not_lt.mp h3
      · intro _; rfl
    · rw [if_neg (by omega)]
      constructor
      · intro h; exact absurd h (by omega)
      · intro h
        have h3 : ∀ x ∈ tl, (fun x => decide (c < x)) x = false := by
          intro x hx
          simp only [decide_eq_false_iff_not]
          exact not_lt.mpr (h x (List.mem_cons_of_mem a hx))
        exact absurd ((findIdx_eq_length_iff _ tl).mpr h3) hfi

theorem findExtremaWithSign_insufficient (d : DEnv) (sign : ℤ) (ph0 : ℚ)
    (ht : d.t ≠ []) (hw : d.omega22 ≠ [])
    (hph : d.phase22.head? = some ph0) :
    (findExtremaWithSign d sign = .error .insufficientData ↔
      ∀ x ∈ d.phase22, x ≤ ph0 + 72 / 5 * pi) := by
  have ht0 := pyGet_zero d.t (d.t.head ht) (List.head?_eq_head ht)
  have htL := pyGet_neg_one d.t ht
  have hw0 := pyGet_zero d.omega22 (d.omega22.head hw) (List.head?_eq_head hw)
  have hwL := pyGet_neg_one d.omega22 hw
  have hp0 := pyGet_zero d.phase22 ph0 hph
  simp only [findExtremaWithSign, ht0, htL, hw0, hwL, hp0]
  have hthr : ph0 + 6 / 5 * ((3 : ℕ) : ℚ) * 4 * pi = ph0 + 72 / 5 * pi := by
    push_cast
    ring
  rw [hthr]
  have hchar := argmaxGt_eq_zero_iff d.phase22 (ph0 + 72 / 5 * pi) ph0 hph
    (by have h2 := pi_pos; linarith)
  constructor
  · intro h
    by_cases hz : argmaxGt d.phase22 (ph0 + 72 / 5 * pi) = 0
    · exact hchar.mp hz
    · rw [if_neg hz] at h
      exact absurd h (driverLoop_not_insufficient _ _ _ _ _ _)
  · intro h
    rw [if_pos (hchar.mpr h)]

/-- Claim C7 (amended): find_extrema picks the starting idx_ref as the
first index where the phase has strictly exceeded phase[0] + K*N*4*pi
with K = 1.2 and N = 3, that is a phase advance of 14.4*pi (3.6 cycles
of 4*pi, not the 2N = 6 cycle target), and fails with
InsufficientDataError exactly when no phase sample exceeds that
threshold; a series of exactly 5 cycles (20*pi) passes the guard and
proceeds to window resolution. -/
theorem claim_C7_theorem (d : DEnv) (ty : String)
    (hty : ty = "maxima" ∨ ty = "peaks" ∨ ty = "minima" ∨ ty = "troughs")
    (ph0 : ℚ) (ht : d.t ≠ []) (hw : d.omega22 ≠ [])
    (hph : d.phase22.head? = some ph0) :
    (findExtrema d ty = .error .insufficientData ↔
      ∀ x ∈ d.phase22, x ≤ ph0 + 72 / 5 * pi) := by
  rcases hty with h | h | h | h <;> subst h
  · rw [show findExtrema d "maxima" = findExtremaWithSign d 1 from by
      unfold findExtrema; rw [if_pos (Or.inl rfl)]]
    exact findExtremaWithSign_insufficient d 1 ph0 ht hw hph
  · rw [show findExtrema d "peaks" = findExtremaWithSign d 1 from by
      unfold findExtrema; rw [if_pos (Or.inr rfl)]]
    exact findExtremaWithSign_insufficient d 1 ph0 ht hw hph
  · rw [show findExtrema d "minima" = findExtremaWithSign d (-1) from by
      unfold findExtrema
      rw [if_neg (by simp), if_pos (Or.inl rfl)]]
    exact findExtremaWithSign_insufficient d (-1) ph0 ht hw hph
  · rw [show findExtrema d "troughs" = findExtremaWithSign d (-1) from by
      unfold findExtrema
      rw [if_neg (by simp), if_pos (Or.inr rfl)]]
    exact findExtremaWithSign_insufficient d (-1) ph0 ht hw hph

theorem getD_eq_get (l : List ℕ) (n : ℕ) (h : n < l.length) :
    l.getD n 0 = l.get ⟨n, h⟩ := by
  rw [List.getD_eq_getElem?_getD, List.getElem?_eq_getElem h,
    List.get_eq_getElem]
  rfl

theorem pairwise_filter_gap (S : List ℕ) (p : ℕ → Bool)
    (hS : S.Pairwise (fun a b => a + 2 ≤ b)) :
    (S.filter p).Pairwise (fun a b => a + 2 ≤ b) :=
  hS.sublist (List.filter_sublist S)

theorem restrict_window (S : List ℕ) (sg : ℤ) (lo hi : ℕ) (q : P) :
    (restrictPeaks S sg lo hi q).map (· + lo)
      = S.filter (fun j => decide (lo + 1 ≤ j) && decide (j + 2 ≤ hi)) := by
  unfold restrictPeaks
  rw [List.map_map]
  have hcg : ∀ a ∈ S.filter
      (fun j => decide (lo + 1 ≤ j) && decide (j + 2 ≤ hi)),
      ((· + lo) ∘ (· - lo)) a = id a := by
    intro a ha
    have h1 := (List.mem_filter.mp ha).2
    simp only [Bool.and_eq_true, decide_eq_true_eq] at h1
    simp only [Function.comp_apply, id_eq]
    omega
  rw [List.map_congr_left hcg, List.map_id]

theorem validPeaks_restrict (S : List ℕ)
    (hS : S.Pairwise (fun a b => a + 2 ≤ b)) :
    ValidPeaks (restrictPeaks S) := by
  intro sg lo hi p
  constructor
  · unfold restrictPeaks
    rw [List.pairwise_map]
    refine List.Pairwise.imp_of_mem ?_ (pairwise_filter_gap S _ hS)
    intro a b ha hb hab
    have h1 := (List.mem_filter.mp ha).2
    simp only [Bool.and_eq_true, decide_eq_true_eq] at h1
    omega
  · intro j hj
    unfold restrictPeaks at hj
    rcases List.mem_map.mp hj with ⟨a, ha, rfl⟩
    have h1 := (List.mem_filter.mp ha).2
    simp only [Bool.and_eq_true, decide_eq_true_eq] at h1
    omega

theorem sorted_get_le_get (l : List ℕ) (hs : l.Pairwise (· < ·)) (i j : ℕ)
    (hi : i < l.length) (hj : j < l.length) (hij : i ≤ j) :
    l.get ⟨i, hi⟩ ≤ l.get ⟨j, hj⟩ := by
  rcases Nat.lt_or_ge i j with h | h
  · exact le_of_lt (List.pairwise_iff_get.mp hs ⟨i, hi⟩ ⟨j, hj⟩ h)
  · have hij2 : i = j := by omega
    rw [list_get_congr l i j hi hj hij2]

theorem mem_get_nat (l : List ℕ) (x : ℕ) (hx : x ∈ l) :
    ∃ i, ∃ h : i < l.length, l.get ⟨i, h⟩ = x := by
  obtain ⟨n, hn⟩ := List.mem_iff_get.mp hx
  exact ⟨n, n.isLt, hn⟩

theorem mem_of_eq_filter {l S : List ℕ} {p : ℕ → Bool} {x : ℕ}
    (hW : l = S.filter p) (hx : x ∈ l) : x ∈ S := by
  subst hW
  exact (List.mem_filter.mp hx).1

theorem sorted_mem_lt_le_get (l : List ℕ) (hs : l.Pairwise (· < ·))
    (x r k : ℕ) (hx : x ∈ l) (hxr : x < r) (hk : k < l.length)
    (hcnt : l.countP (fun a => decide (a < r)) ≤ k + 1) :
    x ≤ l.get ⟨k, hk⟩ := by
  obtain ⟨i, hil, hix⟩ := mem_get_nat l x hx
  have h1 : i < l.countP (fun a => decide (a < r)) :=
    (sorted_get_lt_iff l hs r i hil).mp (by rw [hix]; exact hxr)
  have h2 : i ≤ k := by omega
  calc x = l.get ⟨i, hil⟩ := hix.symm
    _ ≤ l.get ⟨k, hk⟩ := sorted_get_le_get l hs i k hil hk h2

/-- Claim C4 (amended): the two source peak primitives disagree between
passes on overlapping windows, so strict growth of the appended extrema
is not guaranteed by find_extrema itself (see the counterexample); it
does hold whenever the peak primitive is consistent, i.e. the
restriction of one fixed, well-separated global peak set to each queried
window: then the extremum a driver pass appends (position Nbefore - 1 of
its resolver result) is strictly below the one the next pass appends. -/
theorem claim_C4_theorem (d : DEnv) (S : List ℕ) (sign : ℤ) (Nb Na : ℕ)
    (r1 : ℕ) (K1 : ℚ) (p1 : P) (bounds : List (List ℚ)) (TOL : ℚ)
    (inc : Bool) (K2 : ℚ) (p2 : P) (bounds2 : List (List ℚ)) (TOL2 : ℚ)
    (inc2 : Bool) (W1 W2 : List ℕ) (q1 q2 : P) (L1 L2 : ℚ) (ro1 ro2 : ℕ)
    (hS : S.Pairwise (fun a b => a + 2 ≤ b))
    (hfp : d.findPeaks = restrictPeaks S)
    (hNb : 1 ≤ Nb)
    (h1 : FindExtremaNearIdxRef d r1 sign Nb Na K1 p1 bounds TOL inc
          = .ok (W1, q1, L1, ro1))
    (hlen1 : Nb + 2 ≤ W1.length)
    (h2 : FindExtremaNearIdxRef d ((W1.getD Nb 0 + W1.getD (Nb + 1) 0) / 2)
            sign Nb Na K2 p2 bounds2 TOL2 inc2 = .ok (W2, q2, L2, ro2))
    (hlen2 : Nb + 1 ≤ W2.length) :
    W1.getD (Nb - 1) 0 < W2.getD (Nb - 1) 0 := by
  have hvp : ValidPeaks d.findPeaks := by
    rw [hfp]; exact validPeaks_restrict S hS
  obtain ⟨-, -, lo1, hi1, qq1, hW1⟩ :=
    FindExtremaNearIdxRef_ok_spec d r1 sign Nb Na K1 p1 bounds TOL inc
      W1 q1 L1 ro1 hvp h1
  obtain ⟨hr2, hcnt2, lo2, hi2, qq2, hW2⟩ :=
    FindExtremaNearIdxRef_ok_spec d
      ((W1.getD Nb 0 + W1.getD (Nb + 1) 0) / 2) sign Nb Na K2 p2 bounds2
      TOL2 inc2 W2 q2 L2 ro2 hvp h2
  rw [hfp, restrict_window] at hW1
  rw [hfp, restrict_window] at hW2
  have hgap1 : W1.Pairwise (fun a b => a + 2 ≤ b) := by
    rw [hW1]; exact pairwise_filter_gap S _ hS
  have hgap2 : W2.Pairwise (fun a b => a + 2 ≤ b) := by
    rw [hW2]; exact pairwise_filter_gap S _ hS
  have hlt2 : W2.Pairwise (· < ·) := pairwise_lt_of_gap W2 hgap2
  have hNb1 : Nb - 1 < W1.length := by omega
  have hNbW1 : Nb < W1.length := by omega
  have hNb1W1 : Nb + 1 < W1.length := by omega
  have hNb1W2 : Nb - 1 < W2.length := by omega
  have hNbW2 : Nb < W2.length := by omega
  rw [getD_eq_get W1 (Nb - 1) hNb1, getD_eq_get W2 (Nb - 1) hNb1W2]
  rw [getD_eq_get W1 Nb hNbW1, getD_eq_get W1 (Nb + 1) hNb1W1] at hr2
  have hex : W1.get ⟨Nb - 1, hNb1⟩ + 2 ≤ W1.get ⟨Nb, hNbW1⟩ :=
    pairwise_get_gap W1 hgap1 _ _ hNb1 hNbW1 (by omega)
  have hxy : W1.get ⟨Nb, hNbW1⟩ + 2 ≤ W1.get ⟨Nb + 1, hNb1W1⟩ :=
    pairwise_get_gap W1 hgap1 _ _ hNbW1 hNb1W1 (by omega)
  have hxr : W1.get ⟨Nb, hNbW1⟩
      < (W1.get ⟨Nb, hNbW1⟩ + W1.get ⟨Nb + 1, hNb1W1⟩) / 2 := by omega
  have hmem2 : ∀ z ∈ W2, lo2 + 1 ≤ z ∧ z + 2 ≤ hi2 := by
    intro z hz
    rw [hW2] at hz
    have h3 := (List.mem_filter.mp hz).2
    simp only [Bool.and_eq_true, decide_eq_true_eq] at h3
    exact h3
  by_cases hcA : W2.countP (fun j => decide (j < ro2)) = Nb
  · by_contra hcon
    push_neg at hcon
    have hxS : W1.get ⟨Nb, hNbW1⟩ ∈ S :=
      mem_of_eq_filter hW1 (List.get_mem W1 Nb hNbW1)
    by_cases hPa : lo2 + 1 ≤ W1.get ⟨Nb, hNbW1⟩
    · by_cases hPb : W1.get ⟨Nb, hNbW1⟩ + 2 ≤ hi2
      · have hxW2 : W1.get ⟨Nb, hNbW1⟩ ∈ W2 := by
          rw [hW2]
          refine List.mem_filter.mpr ⟨hxS, ?_⟩
          simp only [Bool.and_eq_true, decide_eq_true_eq]
          exact ⟨hPa, hPb⟩
        have hxle : W1.get ⟨Nb, hNbW1⟩ ≤ W2.get ⟨Nb - 1, hNb1W2⟩ :=
          sorted_mem_lt_le_get W2 hlt2 _ ro2 (Nb - 1) hxW2 (by omega)
            hNb1W2 (by omega)
        omega
      · have hz_ge : ro2 ≤ W2.get ⟨Nb, hNbW2⟩ := by
          by_contra hzlt
          push_neg at hzlt
          have h4 := (sorted_get_lt_iff W2 hlt2 ro2 Nb hNbW2).mp hzlt
          omega
        have hz_int := hmem2 _ (List.get_mem W2 Nb hNbW2)
        omega
    · have hm_mem := hmem2 _ (List.get_mem W2 (Nb - 1) hNb1W2)
      omega
  · have he2ge : ro2 ≤ W2.get ⟨Nb - 1, hNb1W2⟩ := by
      by_contra hlt
      push_neg at hlt
      have h4 := (sorted_get_lt_iff W2 hlt2 ro2 (Nb - 1) hNb1W2).mp hlt
      omega
    omega

section ConcreteWitnesses

attribute [local semireducible] Rat.add Rat.mul Rat.sub Rat.inv Rat.ofScientific

set_option maxRecDepth 1000000

/-- Claim C1, witness: T = 0 with a sample at 1 triggers the strict
guard; the at-most branch is vacuous there. -/
theorem claim_C1_witness :
    ((0 : ℚ) < 1 →
      envelope_call (fun _ _ => 1) 0 [1] 1 0 0 = .error .fittingDomain) ∧
    ((1 : ℚ) ≤ 0 →
      envelope_call (fun _ _ => 1) 0 [1] 1 0 0 =
        .ok (([1] : List ℚ).map (fun t =>
          ((1 : ℚ) * (fun _ _ => (1 : ℚ)) ((0 : ℚ) - 0)
              (-(-((0 : ℚ) - 0) * 0 / 1))) *
            (fun _ _ => (1 : ℚ)) ((0 : ℚ) - t) (-((0 : ℚ) - 0) * 0 / 1)))) :=
  claim_C1_theorem (fun _ _ => 1) 0 [1] 1 0 0 1 (by decide)

/-- Claim C8, witness: the first iteration of the first resolver call on
scenario A, whose seven candidates span phase 6 to 66. -/
theorem claim_C8_witness :
    (∀ W2 p2 K2 r2, resolverIter cC8 sC8 = .ok (.inl (W2, p2, K2, r2)) →
      K2 = ((66 : ℚ) - 6) /
        (4 * pi * ((([3, 7, 11, 15, 25, 29, 33] : List ℕ).length : ℚ) - 1))) ∧
    (∀ s2, resolverIter cC8 sC8 = .ok (.inr s2) →
      s2.K = ((66 : ℚ) - 6) /
        (4 * pi * ((([3, 7, 11, 15, 25, 29, 33] : List ℕ).length : ℚ) - 1))) :=
  claim_C8_theorem cC8 sC8 [3, 7, 11, 15, 25, 29, 33] 33 3 66 6
    (by decide) (by decide) (by decide) (by decide) (by decide) (by decide)

/-- Claim C9, witness: on scenario C7's empty peak primitive the
iteration passes the cap and domain guards and dies at the K step. -/
theorem claim_C9_witness : resolverIter cC9w sC9w = .error .indexError :=
  claim_C9_theorem cC9w sC9w (-1) (by decide) (by decide) (by decide)
    (by decide)

/-- Claim C7, witness: a two-sample series whose phase stays below the
threshold, so the guard fires; both sides of the equivalence hold. -/
theorem claim_C7_witness :
    (findExtrema dC7w "maxima" = .error .insufficientData ↔
      ∀ x ∈ dC7w.phase22, x ≤ 0 + 72 / 5 * pi) :=
  claim_C7_theorem dC7w "maxima" (Or.inl rfl) 0 (by decide) (by decide) rfl

/-- Claim C4, witness: two consecutive driver passes over the consistent
global peak set SC4; the first appends 15, the second appends 25. -/
theorem claim_C4_witness :
    ([3, 7, 11, 15, 25, 29, 33] : List ℕ).getD (4 - 1) 0
      < ([7, 11, 15, 25, 29, 33] : List ℕ).getD (4 - 1) 0 :=
  claim_C4_theorem envC4 SC4 1 4 3 23 (6 / 5) ⟨1, 0, 0⟩ [] (1 / 10 ^ 8)
    true (60 / (24 * pi)) ⟨1, 0, 0⟩ [] (1 / 10 ^ 8) true
    [3, 7, 11, 15, 25, 29, 33] [7, 11, 15, 25, 29, 33] ⟨1, 0, 0⟩ ⟨1, 0, 0⟩
    (60 / (24 * pi)) (52 / (20 * pi)) 23 27
    (by decide) rfl (by decide) (by decide) (by decide) (by decide)
    (by decide)

end ConcreteWitnesses

end GwEcc
